import Mathlib

/-!
# Verification of the pInset pixel-processing engine

Shallow embedding of the pInset engine (`src/lib/InsetDialog.js`,
`src/lib/ScalingUtils.js`) in Lean 4, over exact real arithmetic (JS
floating-point numbers are idealised as `ℝ`), together with theorems
settling the frozen claims about region extraction, resampling, border
synthesis, positioning, alpha compositing and the anti-aliased line
rasterizer.

Pixel buffers (`Float32Array` in the source) are modelled as flat
row-major `List ℝ`; reads use `List.getD` with default `0`.  Images
(the host `Image` objects, accessed only through
`getSamples`/`setSamples` by rectangle and channel) are modelled as
total sample functions indexed by channel and absolute coordinates, and
`setSamples` becomes a functional rectangle update.
-/

namespace PInset

noncomputable section

/-- JavaScript `Math.round`: round half towards positive infinity,
`Math.round t = ⌊t + 0.5⌋`. -/
def jsRound (t : ℝ) : ℤ := ⌊t + 1/2⌋

/-- The clamp-to-[0,1] pattern used throughout the source:
`if (a < 0) a = 0; else if (a > 1) a = 1;`. -/
def clamp01 (a : ℝ) : ℝ := if a < 0 then 0 else if a > 1 then 1 else a

/-- Modelled from the spec (§3 Data Model): the host (PJSR) `Rect` type,
which is not part of the repository sources.  "Rect: axis-aligned
integer-coordinate box (x0,y0,x1,y1); width/height derived; supports
intersection with another Rect, yielding an empty result when
disjoint." -/
structure Rect where
  x0 : ℤ
  y0 : ℤ
  x1 : ℤ
  y1 : ℤ
deriving DecidableEq

def Rect.width (r : Rect) : ℤ := r.x1 - r.x0

def Rect.height (r : Rect) : ℤ := r.y1 - r.y0

/-- Modelled from the spec: `Rect.intersection`, componentwise
max/min of the two boxes. -/
def Rect.intersection (r s : Rect) : Rect :=
  ⟨max r.x0 s.x0, max r.y0 s.y0, min r.x1 s.x1, min r.y1 s.y1⟩

/-- Modelled from the spec: a rect is empty when it contains no pixel,
i.e. when either derived dimension is ≤ 0. -/
def Rect.isEmpty (r : Rect) : Prop := r.x1 ≤ r.x0 ∨ r.y1 ≤ r.y0

instance (r : Rect) : Decidable r.isEmpty := by
  unfold Rect.isEmpty; infer_instance

/-- Membership of an (absolute, integer) pixel coordinate in a rect:
`x0 ≤ x < x1`, `y0 ≤ y < y1`. -/
def Rect.mem (r : Rect) (x y : ℤ) : Prop :=
  r.x0 ≤ x ∧ x < r.x1 ∧ r.y0 ≤ y ∧ y < r.y1

instance (r : Rect) (x y : ℤ) : Decidable (r.mem x y) := by
  unfold Rect.mem; infer_instance

/-- The host image object: dimensions, channel count and a total sample
function (channel, x, y).  The engine only touches images through
`getSamples`/`setSamples` on sub-rectangles. -/
@[ext]
structure JSImage where
  width : ℤ
  height : ℤ
  numberOfChannels : ℕ
  sample : ℕ → ℤ → ℤ → ℝ

/-- `image.setSamples(buffer, rect, c)`: functional update writing the
local-coordinate buffer `buf` into channel `c` over `rect`. -/
def JSImage.setSamples (img : JSImage) (buf : ℤ → ℤ → ℝ) (r : Rect) (c : ℕ) :
    JSImage :=
  { img with
    sample := fun ch x y =>
      if ch = c ∧ r.mem x y then buf (x - r.x0) (y - r.y0)
      else img.sample ch x y }

/-- A flat row-major buffer of width `w` and height `h` filled by the
per-pixel formula `f x y` (the source's `buffer[y * w + x] = f(x, y)`
double loop writes each flat index `y*w + x` exactly once). -/
def mkBuf (w h : ℕ) (f : ℕ → ℕ → ℝ) : List ℝ :=
  (List.range (h * w)).map fun idx => f (idx % w) (idx / w)

/-- Read of a flat buffer at a (possibly computed, integer) index:
in-range reads return the stored sample, as in the source. -/
def bufGet (b : List ℝ) (i : ℤ) : ℝ := b.getD i.toNat 0

/-- The pixel-data record flowing through the pipeline
(`{pixels, width, height, channels, mask, isCircular}` in the source;
a missing `mask`/`isCircular` field is `none` / `false`). -/
structure PixData where
  pixels : List (List ℝ)
  width : ℕ
  height : ℕ
  channels : ℕ
  mask : Option (List ℝ)
  isCircular : Bool

/-- Channel-`c` buffer of a `PixData` (the source's `pixels[c]`). -/
def PixData.chan (d : PixData) (c : ℕ) : List ℝ := d.pixels.getD c []

-- ---------------------------------------------------------------------------
-- Region extraction (InsetEngine.prototype.extractRegion,
-- InsetDialog.js lines 762-791)
-- ---------------------------------------------------------------------------

/-- `InsetEngine.prototype.extractRegion(image, rect)`.  Validates
bounds, then minimum size, then copies each channel of the rectangle
into a fresh `width*height` buffer; no mask. -/
def extractRegion (image : JSImage) (rect : Rect) : Except String PixData :=
  if rect.x0 < 0 ∨ rect.y0 < 0 ∨ rect.x1 > image.width ∨ rect.y1 > image.height then
    .error "Selected region exceeds image bounds"
  else if rect.width < 10 ∨ rect.height < 10 then
    .error "Region must be at least 10x10 pixels"
  else
    let width := rect.width.toNat
    let height := rect.height.toNat
    let channels := image.numberOfChannels
    .ok
      { pixels := (List.range channels).map fun c =>
          mkBuf width height fun x y =>
            image.sample c (rect.x0 + x) (rect.y0 + y)
        width := width
        height := height
        channels := channels
        mask := none
        isCircular := false }

-- ---------------------------------------------------------------------------
-- Circular extraction (InsetEngine.prototype.extractCircularRegion,
-- InsetDialog.js lines 800-840)
-- ---------------------------------------------------------------------------

/-- The circular coverage mask value written by
`extractCircularRegion` at pixel `(x, y)` of a `w × h` square whose
centre is `(w/2, h/2)`:
`clamp01 (radius + 0.5 - sqrt (dx² + dy²))` with
`dx = x - w/2 + 0.5`, `dy = y - h/2 + 0.5`. -/
def circMaskVal (w h : ℕ) (radius : ℝ) (x y : ℕ) : ℝ :=
  let cx : ℝ := (w : ℝ) / 2
  let cy : ℝ := (h : ℝ) / 2
  let dx : ℝ := (x : ℝ) - cx + 1/2
  let dy : ℝ := (y : ℝ) - cy + 1/2
  let dist : ℝ := Real.sqrt (dx * dx + dy * dy)
  clamp01 (radius + 1/2 - dist)

/-- `InsetEngine.prototype.extractCircularRegion(image, center, diameter)`:
round and clamp the bounding square to the image, extract it, then
attach the anti-aliased circular mask and the `isCircular` flag. -/
def extractCircularRegion (image : JSImage) (centerX centerY diameter : ℝ) :
    Except String PixData :=
  let radius := diameter / 2
  let x0 := max 0 (jsRound (centerX - radius))
  let y0 := max 0 (jsRound (centerY - radius))
  let x1 := min image.width (jsRound (centerX + radius))
  let y1 := min image.height (jsRound (centerY + radius))
  let rect : Rect := ⟨x0, y0, x1, y1⟩
  match extractRegion image rect with
  | .error e => .error e
  | .ok data =>
      .ok { data with
              mask := some (mkBuf data.width data.height
                (circMaskVal data.width data.height radius))
              isCircular := true }

-- ---------------------------------------------------------------------------
-- Resampler (ScalingUtils.js)
-- ---------------------------------------------------------------------------

/-- Clamp an integer index into `[0, n-1]`
(`Math.max(0, Math.min(n - 1, i))`). -/
def clampIdx (n : ℕ) (i : ℤ) : ℤ := max 0 (min ((n : ℤ) - 1) i)

namespace ScalingUtils

/-- `ScalingUtils.cubicWeight(t)`: the Catmull-Rom-style cubic
convolution kernel. -/
def cubicWeight (t : ℝ) : ℝ :=
  let t := |t|
  if t ≤ 1 then 1.5 * t * t * t - 2.5 * t * t + 1
  else if t ≤ 2 then -0.5 * t * t * t + 2.5 * t * t - 4 * t + 2
  else 0

/-- `ScalingUtils.lanczosKernel(x, a)`. -/
def lanczosKernel (x : ℝ) (a : ℕ) : ℝ :=
  if x = 0 then 1
  else if (a : ℝ) ≤ |x| then 0
  else
    let pix := Real.pi * x
    ((a : ℝ) * Real.sin pix * Real.sin (pix / a)) / (pix * pix)

/-- One output sample of `ScalingUtils.nearestInterpolate`. -/
def nearestPixel (src : List ℝ) (srcW srcH dstW dstH : ℕ) (x y : ℕ) : ℝ :=
  let xRatio : ℝ := (srcW : ℝ) / (dstW : ℝ)
  let yRatio : ℝ := (srcH : ℝ) / (dstH : ℝ)
  let srcX := min ⌊(x : ℝ) * xRatio⌋ ((srcW : ℤ) - 1)
  let srcY := min ⌊(y : ℝ) * yRatio⌋ ((srcH : ℤ) - 1)
  bufGet src (srcY * srcW + srcX)

/-- `ScalingUtils.nearestInterpolate(src, srcW, srcH, dst, dstW, dstH)`
as the destination buffer it fills. -/
def nearestInterpolate (src : List ℝ) (srcW srcH dstW dstH : ℕ) : List ℝ :=
  mkBuf dstW dstH (nearestPixel src srcW srcH dstW dstH)

/-- One output sample of `ScalingUtils.bilinearInterpolate`. -/
def bilinearPixel (src : List ℝ) (srcW srcH dstW dstH : ℕ) (x y : ℕ) : ℝ :=
  let srcX : ℝ := (x : ℝ) * ((srcW : ℝ) / (dstW : ℝ))
  let srcY : ℝ := (y : ℝ) * ((srcH : ℝ) / (dstH : ℝ))
  let x0 := ⌊srcX⌋
  let y0 := ⌊srcY⌋
  let x1 := min (x0 + 1) ((srcW : ℤ) - 1)
  let y1 := min (y0 + 1) ((srcH : ℤ) - 1)
  let xFrac := srcX - x0
  let yFrac := srcY - y0
  let v00 := bufGet src (y0 * srcW + x0)
  let v10 := bufGet src (y0 * srcW + x1)
  let v01 := bufGet src (y1 * srcW + x0)
  let v11 := bufGet src (y1 * srcW + x1)
  let top := v00 * (1 - xFrac) + v10 * xFrac
  let bottom := v01 * (1 - xFrac) + v11 * xFrac
  top * (1 - yFrac) + bottom * yFrac

/-- `ScalingUtils.bilinearInterpolate` as the buffer it fills. -/
def bilinearInterpolate (src : List ℝ) (srcW srcH dstW dstH : ℕ) : List ℝ :=
  mkBuf dstW dstH (bilinearPixel src srcW srcH dstW dstH)

/-- One output sample of `ScalingUtils.bicubicInterpolate`: the j/i
loops run `j = -1..2`, `i = -1..2` accumulating `sum` and `weightSum`;
real addition being commutative and associative, the loop totals are
the corresponding finite sums (indexed here by `Finset.range 4` with
offset `-1`). -/
def bicubicPixel (src : List ℝ) (srcW srcH dstW dstH : ℕ) (x y : ℕ) : ℝ :=
  let srcX : ℝ := (x : ℝ) * ((srcW : ℝ) / (dstW : ℝ))
  let srcY : ℝ := (y : ℝ) * ((srcH : ℝ) / (dstH : ℝ))
  let x0 := ⌊srcX⌋
  let y0 := ⌊srcY⌋
  let xFrac := srcX - x0
  let yFrac := srcY - y0
  let sum := ∑ j ∈ Finset.range 4, ∑ i ∈ Finset.range 4,
    bufGet src (clampIdx srcH (y0 + ((j : ℤ) - 1)) * srcW
                  + clampIdx srcW (x0 + ((i : ℤ) - 1)))
      * (cubicWeight (((i : ℤ) - 1 : ℤ) - xFrac) * cubicWeight (((j : ℤ) - 1 : ℤ) - yFrac))
  let weightSum := ∑ j ∈ Finset.range 4, ∑ i ∈ Finset.range 4,
    cubicWeight (((i : ℤ) - 1 : ℤ) - xFrac) * cubicWeight (((j : ℤ) - 1 : ℤ) - yFrac)
  max 0 (min 1 (sum / weightSum))

/-- `ScalingUtils.bicubicInterpolate` as the buffer it fills. -/
def bicubicInterpolate (src : List ℝ) (srcW srcH dstW dstH : ℕ) : List ℝ :=
  mkBuf dstW dstH (bicubicPixel src srcW srcH dstW dstH)

/-- One output sample of `ScalingUtils.lanczosInterpolate`
(`a = 3`; loops `j = -2..3`, `i = -2..3`, here `Finset.range 6` with
offset `-2`). -/
def lanczosPixel (src : List ℝ) (srcW srcH dstW dstH : ℕ) (x y : ℕ) : ℝ :=
  let a : ℕ := 3
  let srcX : ℝ := (x : ℝ) * ((srcW : ℝ) / (dstW : ℝ))
  let srcY : ℝ := (y : ℝ) * ((srcH : ℝ) / (dstH : ℝ))
  let x0 := ⌊srcX⌋
  let y0 := ⌊srcY⌋
  let sum := ∑ j ∈ Finset.range 6, ∑ i ∈ Finset.range 6,
    bufGet src (clampIdx srcH (y0 + ((j : ℤ) - 2)) * srcW
                  + clampIdx srcW (x0 + ((i : ℤ) - 2)))
      * (lanczosKernel (srcX - ((x0 : ℝ) + ((i : ℤ) - 2 : ℤ))) a
          * lanczosKernel (srcY - ((y0 : ℝ) + ((j : ℤ) - 2 : ℤ))) a)
  let weightSum := ∑ j ∈ Finset.range 6, ∑ i ∈ Finset.range 6,
    lanczosKernel (srcX - ((x0 : ℝ) + ((i : ℤ) - 2 : ℤ))) a
      * lanczosKernel (srcY - ((y0 : ℝ) + ((j : ℤ) - 2 : ℤ))) a
  max 0 (min 1 (if 0 < weightSum then sum / weightSum else 0))

/-- `ScalingUtils.lanczosInterpolate` as the buffer it fills. -/
def lanczosInterpolate (src : List ℝ) (srcW srcH dstW dstH : ℕ) : List ℝ :=
  mkBuf dstW dstH (lanczosPixel src srcW srcH dstW dstH)

/-- `ScalingUtils.scaleBuffer`: dispatch on the method name,
defaulting to bicubic. -/
def scaleBuffer (src : List ℝ) (srcW srcH dstW dstH : ℕ) (method : String) :
    List ℝ :=
  if method = "nearest" then nearestInterpolate src srcW srcH dstW dstH
  else if method = "bilinear" then bilinearInterpolate src srcW srcH dstW dstH
  else if method = "lanczos" then lanczosInterpolate src srcW srcH dstW dstH
  else bicubicInterpolate src srcW srcH dstW dstH

end ScalingUtils

-- ---------------------------------------------------------------------------
-- Engine-side optimized bicubic (InsetEngine.prototype.bicubicInterpolate,
-- InsetDialog.js lines 905-980) and scalePixels (lines 853-899)
-- ---------------------------------------------------------------------------

/-- JavaScript `r | 0`: conversion to integer by truncation towards
zero (32-bit wrap-around is ignored: all indices in play are far below
2^31). -/
def jsTrunc (r : ℝ) : ℤ := if 0 ≤ r then ⌊r⌋ else -⌊-r⌋

/-- The `computeCubicWeight` closure inlined in the engine's
`bicubicInterpolate` (`t = t < 0 ? -t : t` then the two cubic
branches). -/
def engineCubicWeight (t : ℝ) : ℝ :=
  let t := if t < 0 then -t else t
  if t ≤ 1 then 1.5 * t * t * t - 2.5 * t * t + 1
  else if t ≤ 2 then -0.5 * t * t * t + 2.5 * t * t - 4 * t + 2
  else 0

/-- The engine's per-pixel clamp of a source row/column index
(`if (p < 0) p = 0; else if (p >= n) p = n - 1;`). -/
def engineClampIdx (n : ℕ) (p : ℤ) : ℤ :=
  if p < 0 then 0 else if (n : ℤ) ≤ p then (n : ℤ) - 1 else p

/-- One output sample of the engine's optimized
`InsetEngine.prototype.bicubicInterpolate`: floor inlined as `| 0`,
row-cached weight vectors `yWeights`/`xWeights`, 4×4 accumulation,
division by the weight sum, clamp to `[0,1]` by two `if`s. -/
def engineBicubicPixel (src : List ℝ) (srcW srcH dstW dstH : ℕ) (x y : ℕ) : ℝ :=
  let xRatio : ℝ := (srcW : ℝ) / (dstW : ℝ)
  let yRatio : ℝ := (srcH : ℝ) / (dstH : ℝ)
  let srcY : ℝ := (y : ℝ) * yRatio
  let y0 := jsTrunc srcY
  let yFrac := srcY - y0
  let yWeights : List ℝ :=
    [engineCubicWeight (-1 - yFrac), engineCubicWeight (0 - yFrac),
     engineCubicWeight (1 - yFrac), engineCubicWeight (2 - yFrac)]
  let srcX : ℝ := (x : ℝ) * xRatio
  let x0 := jsTrunc srcX
  let xFrac := srcX - x0
  let xWeights : List ℝ :=
    [engineCubicWeight (-1 - xFrac), engineCubicWeight (0 - xFrac),
     engineCubicWeight (1 - xFrac), engineCubicWeight (2 - xFrac)]
  let sum := ∑ j ∈ Finset.range 4, ∑ i ∈ Finset.range 4,
    bufGet src (engineClampIdx srcH (y0 + (j : ℤ) - 1) * srcW
                  + engineClampIdx srcW (x0 + (i : ℤ) - 1))
      * (xWeights.getD i 0 * yWeights.getD j 0)
  let weightSum := ∑ j ∈ Finset.range 4, ∑ i ∈ Finset.range 4,
    xWeights.getD i 0 * yWeights.getD j 0
  let result := sum / weightSum
  if result < 0 then 0 else if result > 1 then 1 else result

/-- The engine's `bicubicInterpolate` as the destination buffer it
fills. -/
def engineBicubicInterpolate (src : List ℝ) (srcW srcH dstW dstH : ℕ) : List ℝ :=
  mkBuf dstW dstH (engineBicubicPixel src srcW srcH dstW dstH)

/-- The `InsetEngine` constructor state: the only field is the default
`interpolationMethod` setting. -/
structure InsetEngine where
  interpolationMethod : String := "bicubic"

/-- `InsetEngine.prototype.scalePixels(extractedData, targetWidth,
targetHeight)`: every channel goes through `this.bicubicInterpolate`;
for circular data the mask is regenerated at the target size with
radius `min(targetWidth, targetHeight)/2`. -/
def scalePixels (_e : InsetEngine) (extractedData : PixData)
    (targetWidth targetHeight : ℕ) : PixData :=
  let srcWidth := extractedData.width
  let srcHeight := extractedData.height
  let channels := extractedData.channels
  let scaledPixels := (List.range channels).map fun c =>
    engineBicubicInterpolate (extractedData.chan c) srcWidth srcHeight
      targetWidth targetHeight
  let scaledMask : Option (List ℝ) :=
    if extractedData.isCircular then
      some (mkBuf targetWidth targetHeight
        (circMaskVal targetWidth targetHeight (((min targetWidth targetHeight : ℕ) : ℝ) / 2)))
    else none
  { pixels := scaledPixels
    width := targetWidth
    height := targetHeight
    channels := channels
    mask := scaledMask
    isCircular := extractedData.isCircular }

-- ---------------------------------------------------------------------------
-- Border compositor (InsetEngine.prototype.addBorder,
-- InsetDialog.js lines 1006-1119)
-- ---------------------------------------------------------------------------

/-- `{r, g, b}` colour with optional alpha
(`(color.a !== undefined) ? color.a : 1.0`). -/
structure Color where
  r : ℝ
  g : ℝ
  b : ℝ
  a : Option ℝ := none

/-- The channel-`c` output buffer of `addBorder`: filled with the
border colour (`c < 3 ? colors[c] : 1.0`), then the content copied to
the centre — blended against the border colour through the source mask
when one is present, copied directly otherwise.  (The source's
fill-then-overwrite loops write each flat index exactly once, so the
buffer is given here by its per-index value.) -/
def addBorderChan (scaledData : PixData) (borderWidth : ℕ) (borderColor : Color)
    (c : ℕ) : List ℝ :=
  let srcW := scaledData.width
  let srcH := scaledData.height
  let dstW := srcW + borderWidth * 2
  let dstH := srcH + borderWidth * 2
  let borderVal := if c < 3 then [borderColor.r, borderColor.g, borderColor.b].getD c 0
                   else 1
  mkBuf dstW dstH fun dx dy =>
    if borderWidth ≤ dx ∧ dx < srcW + borderWidth
        ∧ borderWidth ≤ dy ∧ dy < srcH + borderWidth then
      let srcIdx := (dy - borderWidth) * srcW + (dx - borderWidth)
      match scaledData.mask with
      | some srcMask =>
          let alpha := srcMask.getD srcIdx 0
          (scaledData.chan c).getD srcIdx 0 * alpha + borderVal * (1 - alpha)
      | none => (scaledData.chan c).getD srcIdx 0
    else borderVal

/-- The `borderedMask` buffer synthesized by `addBorder`: the
four-zone circular mask when the input carries a mask, the
`borderAlpha`-rim / 1.0-interior rectangular mask otherwise. -/
def borderedMaskBuf (scaledData : PixData) (borderWidth : ℕ) (borderColor : Color) :
    List ℝ :=
  let srcW := scaledData.width
  let srcH := scaledData.height
  let dstW := srcW + borderWidth * 2
  let dstH := srcH + borderWidth * 2
  let borderAlpha := borderColor.a.getD 1
  match scaledData.mask with
  | some _ =>
      let cx : ℝ := (dstW : ℝ) / 2
      let cy : ℝ := (dstH : ℝ) / 2
      let outerRadius : ℝ := ((min dstW dstH : ℕ) : ℝ) / 2
      let innerRadius : ℝ := outerRadius - (borderWidth : ℝ)
      mkBuf dstW dstH fun x y =>
        let dx : ℝ := (x : ℝ) - cx + 1/2
        let dy : ℝ := (y : ℝ) - cy + 1/2
        let dist := Real.sqrt (dx * dx + dy * dy)
        if outerRadius + 1/2 < dist then 0
        else if outerRadius - 1/2 < dist then borderAlpha * (outerRadius + 1/2 - dist)
        else if innerRadius < dist then borderAlpha
        else 1
  | none =>
      mkBuf dstW dstH fun x y =>
        if borderWidth ≤ x ∧ x < dstW - borderWidth
            ∧ borderWidth ≤ y ∧ y < dstH - borderWidth then 1
        else borderAlpha

/-- `InsetEngine.prototype.addBorder(scaledData, borderWidth,
borderColor)`.  The mask-synthesis block sits inside the per-channel
loop in the source and computes the same buffer on every iteration, so
the output mask is that buffer when there is at least one channel; with
zero channels the loop never runs and the (var-hoisted) `borderedMask`
remains `undefined`. -/
def addBorder (scaledData : PixData) (borderWidth : ℕ) (borderColor : Color) :
    PixData :=
  { pixels := (List.range scaledData.channels).map
      (addBorderChan scaledData borderWidth borderColor)
    width := scaledData.width + borderWidth * 2
    height := scaledData.height + borderWidth * 2
    channels := scaledData.channels
    mask := if 0 < scaledData.channels then
        some (borderedMaskBuf scaledData borderWidth borderColor)
      else none
    isCircular := scaledData.isCircular }

-- ---------------------------------------------------------------------------
-- Positioner (InsetEngine.prototype.calculatePosition,
-- InsetDialog.js lines 1136-1172)
-- ---------------------------------------------------------------------------

/-- Integer top-left placement. -/
structure Position where
  x : ℤ
  y : ℤ
deriving DecidableEq

/-- `InsetEngine.prototype.calculatePosition(imageWidth, imageHeight,
insetWidth, insetHeight, preset, margin, customPos)`: preset switch
(default = Top-Left), then clamp both axes with
`Math.max(0, Math.min(imgDim - insDim, pos))`. -/
def calculatePosition (imageWidth imageHeight insetWidth insetHeight : ℤ)
    (preset : String) (margin : ℤ) (customPos : Option Position) : Position :=
  let pos : Position :=
    if preset = "Top-Left" then ⟨margin, margin⟩
    else if preset = "Top-Right" then ⟨imageWidth - insetWidth - margin, margin⟩
    else if preset = "Bottom-Left" then ⟨margin, imageHeight - insetHeight - margin⟩
    else if preset = "Bottom-Right" then
      ⟨imageWidth - insetWidth - margin, imageHeight - insetHeight - margin⟩
    else if preset = "Custom" then
      match customPos with
      | some p => p
      | none => ⟨margin, margin⟩
    else ⟨margin, margin⟩
  ⟨max 0 (min (imageWidth - insetWidth) pos.x),
   max 0 (min (imageHeight - insetHeight) pos.y)⟩

-- ---------------------------------------------------------------------------
-- Alpha compositor (InsetEngine.prototype.compositeInset,
-- InsetDialog.js lines 1185-1270)
-- ---------------------------------------------------------------------------

/-- The blended row buffer written back by `compositeInset` for channel
`c`: at local coordinate `(x, y)` of the safe rect, read the inset
sample at `srcIdx = (y + offsetY) * insetW + (x + offsetX)`, give it
`pixelAlpha = globalAlpha`, multiplied by `mask[srcIdx]` when a mask is
present, and blend `src * alpha + dest * (1 - alpha)`. -/
def compositeBlend (insetData : PixData) (globalAlpha : ℝ) (insetW offsetX offsetY : ℤ)
    (c : ℕ) (targetBuffer : ℤ → ℤ → ℝ) : ℤ → ℤ → ℝ := fun x y =>
  let srcIdx := (y + offsetY) * insetW + (x + offsetX)
  let pixelAlpha := match insetData.mask with
    | some m => globalAlpha * bufGet m srcIdx
    | none => globalAlpha
  bufGet (insetData.chan c) srcIdx * pixelAlpha + targetBuffer x y * (1 - pixelAlpha)

/-- One iteration of the channel loop of `compositeInset`: read the
destination samples of `safeRect` on channel `c` (`getSamples`), blend,
write back (`setSamples`). -/
def compositeStep (insetData : PixData) (globalAlpha : ℝ) (insetW offsetX offsetY : ℤ)
    (safeRect : Rect) (img : JSImage) (c : ℕ) : JSImage :=
  img.setSamples
    (compositeBlend insetData globalAlpha insetW offsetX offsetY c
      (fun x y => img.sample c (safeRect.x0 + x) (safeRect.y0 + y)))
    safeRect c

/-- `InsetEngine.prototype.compositeInset(targetImage, insetData,
position, opacity)`: destination rect from position + inset size,
intersect with the image bounds, silent no-op when empty, otherwise
blend channel by channel over the visible sub-rectangle. -/
def compositeInset (targetImage : JSImage) (insetData : PixData)
    (position : Position) (opacity : Option ℝ) : JSImage :=
  let globalAlpha := opacity.getD 1
  let insetW : ℤ := insetData.width
  let insetH : ℤ := insetData.height
  let channels := min insetData.channels targetImage.numberOfChannels
  let destRect : Rect := ⟨position.x, position.y,
                          position.x + insetW, position.y + insetH⟩
  let safeRect := destRect.intersection ⟨0, 0, targetImage.width, targetImage.height⟩
  if safeRect.isEmpty then targetImage
  else
    let offsetX := safeRect.x0 - destRect.x0
    let offsetY := safeRect.y0 - destRect.y0
    (List.range channels).foldl
      (compositeStep insetData globalAlpha insetW offsetX offsetY safeRect)
      targetImage

-- ---------------------------------------------------------------------------
-- Vector rasterizer: thick-line coverage
-- (InsetEngine.prototype.bresenhamLine, InsetDialog.js lines 1415-1516)
-- ---------------------------------------------------------------------------

/-- The per-pixel coverage computed by `bresenhamLine` for the pixel
centre `(px, py)` against the segment `(x0,y0)-(x1,y1)` of the given
thickness: project onto the segment, clamp the parameter to
`[0, lineLength]`, take the Euclidean distance to the closest point,
then full coverage within `halfThick - 0.5`, linear falloff up to
`halfThick + 0.5`, zero beyond.  A segment of length `< 0.001`
substitutes the unit direction `(1, 0)` and length `1`. -/
def lineCoverage (x0 y0 x1 y1 thickness px py : ℝ) : ℝ :=
  let halfThick := thickness / 2
  let dx := x1 - x0
  let dy := y1 - y0
  let lineLength := Real.sqrt (dx * dx + dy * dy)
  let degenerate := lineLength < 0.001
  let dx := if degenerate then 1 else dx
  let dy := if degenerate then 0 else dy
  let lineLength := if degenerate then 1 else lineLength
  let ndx := dx / lineLength
  let ndy := dy / lineLength
  let t := (px - x0) * ndx + (py - y0) * ndy
  let t := if t < 0 then 0 else if lineLength < t then lineLength else t
  let closestX := x0 + t * ndx
  let closestY := y0 + t * ndy
  let distX := px - closestX
  let distY := py - closestY
  let dist := Real.sqrt (distX * distX + distY * distY)
  if dist ≤ halfThick + 0.5 then
    (if dist ≤ halfThick - 0.5 then 1 else halfThick + 0.5 - dist)
  else 0

/-- The per-pixel mask value `compositeInset` multiplies into the
global opacity: `mask[srcIdx]` when a mask is present, `1.0` when
absent. -/
def maskValAt (d : PixData) (idx : ℤ) : ℝ :=
  match d.mask with
  | some m => bufGet m idx
  | none => 1

/-- Distance from the centre of a `w × h` pixel grid to the centre of
pixel `(x, y)` (the spec's "distance from the extracted square's center
to the pixel center"). -/
def pixDist (w h : ℕ) (x y : ℕ) : ℝ :=
  Real.sqrt (((x : ℝ) - (w : ℝ) / 2 + 1/2) * ((x : ℝ) - (w : ℝ) / 2 + 1/2)
    + ((y : ℝ) - (h : ℝ) / 2 + 1/2) * ((y : ℝ) - (h : ℝ) / 2 + 1/2))

/-- The outer radius used by `addBorder`'s circular mask:
`min(dstW, dstH) / 2` for the bordered canvas. -/
def borderOuterRadius (d : PixData) (b : ℕ) : ℝ :=
  ((min (d.width + b * 2) (d.height + b * 2) : ℕ) : ℝ) / 2

/-- Distance from the bordered canvas centre to the centre of output
pixel `(x, y)`. -/
def borderDist (d : PixData) (b : ℕ) (x y : ℕ) : ℝ :=
  pixDist (d.width + b * 2) (d.height + b * 2) x y

/-- Distance from the point `(px, py)` to its clamped projection onto a
segment with origin `(x0, y0)`, unit direction `(ndx, ndy)` and length
`len` (the spec's "distance of the pixel center to its clamped
projection onto the segment"). -/
def clampedProjDist (x0 y0 ndx ndy len px py : ℝ) : ℝ :=
  let t := max 0 (min len ((px - x0) * ndx + (py - y0) * ndy))
  Real.sqrt ((px - (x0 + t * ndx)) * (px - (x0 + t * ndx))
    + (py - (y0 + t * ndy)) * (py - (y0 + t * ndy)))

-- ---------------------------------------------------------------------------
-- Basic buffer lemmas
-- ---------------------------------------------------------------------------

theorem mkBuf_length (w h : ℕ) (f : ℕ → ℕ → ℝ) : (mkBuf w h f).length = h * w := by
  simp [mkBuf]

theorem mkBuf_getD (w h : ℕ) (f : ℕ → ℕ → ℝ) (x y : ℕ) (hx : x < w) (hy : y < h) :
    (mkBuf w h f).getD (y * w + x) 0 = f x y := by
  have hidx : y * w + x < h * w := by
    calc y * w + x < y * w + w := by omega
    _ = (y + 1) * w := by ring
    _ ≤ h * w := Nat.mul_le_mul_right _ (by omega)
  have hlen : y * w + x < (mkBuf w h f).length := by
    simpa [mkBuf_length] using hidx
  rw [List.getD_eq_getElem _ _ hlen]
  simp only [mkBuf, List.getElem_map, List.getElem_range]
  congr 1
  · rw [Nat.add_comm, Nat.add_mul_mod_self_right, Nat.mod_eq_of_lt hx]
  · rw [Nat.add_comm, Nat.add_mul_div_right _ _ (by omega : 0 < w),
      Nat.div_eq_of_lt hx, Nat.zero_add]

theorem bufGet_natCast (b : List ℝ) (n : ℕ) : bufGet b (n : ℤ) = b.getD n 0 := by
  simp [bufGet]

/-- A buffer built by `mkBuf` whose per-pixel formula just reads the
source back (row-major) is the source, provided the source has the
right length. -/
theorem mkBuf_eq_self (w h : ℕ) (src : List ℝ) (hlen : src.length = h * w)
    (f : ℕ → ℕ → ℝ) (hf : ∀ x y, x < w → y < h → f x y = src.getD (y * w + x) 0) :
    mkBuf w h f = src := by
  apply List.ext_getElem
  · simp [mkBuf_length, hlen]
  · intro i h1 h2
    have hi : i < h * w := by simpa [mkBuf_length] using h1
    have hw : 0 < w := by
      rcases Nat.eq_zero_or_pos w with hw0 | hw0
      · rw [hw0, Nat.mul_zero] at hi
        exact absurd hi (Nat.not_lt_zero i)
      · exact hw0
    have hxw : i % w < w := Nat.mod_lt _ hw
    have hyh : i / w < h := Nat.div_lt_of_lt_mul (by rw [Nat.mul_comm]; exact hi)
    have hget : (mkBuf w h f)[i] = f (i % w) (i / w) := by
      simp [mkBuf]
    rw [hget, hf _ _ hxw hyh]
    have hidx : i / w * w + i % w = i := Nat.div_add_mod' i w
    rw [hidx, List.getD_eq_getElem _ _ h2]

theorem clamp01_of_one_le {t : ℝ} (h : 1 ≤ t) : clamp01 t = 1 := by
  unfold clamp01
  rcases lt_or_le 1 t with h1 | h1
  · rw [if_neg (by linarith), if_pos h1]
  · rw [if_neg (by linarith), if_neg (by linarith)]; linarith

theorem clamp01_of_neg {t : ℝ} (h : t < 0) : clamp01 t = 0 := by
  unfold clamp01
  rw [if_pos h]

theorem clamp01_mono {a b : ℝ} (h : a ≤ b) : clamp01 a ≤ clamp01 b := by
  unfold clamp01
  split_ifs <;> linarith

-- ---------------------------------------------------------------------------
-- C5: calculatePosition
-- ---------------------------------------------------------------------------

/-- C5: `calculatePosition` clamps both axes of the resolved preset
position into `[0, imgDim − insDim]` (never negative; never past the
far edge when the inset fits); for preset Bottom-Right with image
1000×800, inset 200×150, margin 10 it returns exactly (790, 640); and
for an oversized inset 1200×150 on the same image the x coordinate is
clamped to 0. -/
theorem C5_calculatePosition_clamps
    (imageWidth imageHeight insetWidth insetHeight : ℤ) (preset : String)
    (margin : ℤ) (customPos : Option Position) :
    (0 ≤ (calculatePosition imageWidth imageHeight insetWidth insetHeight
            preset margin customPos).x
      ∧ 0 ≤ (calculatePosition imageWidth imageHeight insetWidth insetHeight
            preset margin customPos).y
      ∧ (insetWidth ≤ imageWidth →
          (calculatePosition imageWidth imageHeight insetWidth insetHeight
            preset margin customPos).x ≤ imageWidth - insetWidth)
      ∧ (insetHeight ≤ imageHeight →
          (calculatePosition imageWidth imageHeight insetWidth insetHeight
            preset margin customPos).y ≤ imageHeight - insetHeight))
    ∧ calculatePosition 1000 800 200 150 "Bottom-Right" 10 none = ⟨790, 640⟩
    ∧ (calculatePosition 1000 800 1200 150 "Bottom-Right" 10 none).x = 0 := by
  refine ⟨⟨?_, ?_, ?_, ?_⟩, by decide, by decide⟩ <;>
    simp only [calculatePosition] <;> intros <;> omega

/-- Witness for C5 at a concrete input (image 30×20, inset 10×10,
Top-Right preset, margin 3). -/
theorem C5_calculatePosition_clamps_witness :
    0 ≤ (calculatePosition 30 20 10 10 "Top-Right" 3 none).x
      ∧ (10 : ℤ) ≤ 30
      ∧ (calculatePosition 30 20 10 10 "Top-Right" 3 none).x ≤ 30 - 10 :=
  ⟨(C5_calculatePosition_clamps 30 20 10 10 "Top-Right" 3 none).1.1,
   by decide,
   (C5_calculatePosition_clamps 30 20 10 10 "Top-Right" 3 none).1.2.2.1 (by decide)⟩

-- ---------------------------------------------------------------------------
-- C2: extractRegion
-- ---------------------------------------------------------------------------

/-- C2: `extractRegion` fails with the out-of-bounds error exactly when
the rect exceeds the source dimensions (checked first), with the
too-small error when (in bounds and) either dimension is below 10; for
every in-bounds rect with both dimensions ≥ 10 it succeeds and returns
one buffer of exactly width×height samples per source channel and no
mask.  The function validates before constructing anything, mutating no
buffer on failure (it is a pure function returning either the error or
the freshly built region). -/
theorem C2_extractRegion_validation (image : JSImage) (rect : Rect) :
    ((rect.x0 < 0 ∨ rect.y0 < 0 ∨ rect.x1 > image.width ∨ rect.y1 > image.height) →
        extractRegion image rect = .error "Selected region exceeds image bounds")
    ∧ (¬(rect.x0 < 0 ∨ rect.y0 < 0 ∨ rect.x1 > image.width ∨ rect.y1 > image.height) →
        (rect.width < 10 ∨ rect.height < 10) →
        extractRegion image rect = .error "Region must be at least 10x10 pixels")
    ∧ (¬(rect.x0 < 0 ∨ rect.y0 < 0 ∨ rect.x1 > image.width ∨ rect.y1 > image.height) →
        10 ≤ rect.width → 10 ≤ rect.height →
        ∃ d, extractRegion image rect = .ok d
          ∧ d.width = rect.width.toNat
          ∧ d.height = rect.height.toNat
          ∧ d.channels = image.numberOfChannels
          ∧ d.pixels.length = image.numberOfChannels
          ∧ (∀ buf ∈ d.pixels, buf.length = rect.width.toNat * rect.height.toNat)
          ∧ d.mask = none) := by
  refine ⟨fun hoob => ?_, fun hoob hsmall => ?_, fun hoob hw hh => ?_⟩
  · rw [extractRegion, if_pos hoob]
  · rw [extractRegion, if_neg hoob, if_pos hsmall]
  · rw [extractRegion, if_neg hoob, if_neg (by omega)]
    refine ⟨_, rfl, rfl, rfl, rfl, by simp, fun buf hbuf => ?_, rfl⟩
    simp only [List.mem_map] at hbuf
    obtain ⟨c, -, rfl⟩ := hbuf
    rw [mkBuf_length, Nat.mul_comm]

/-- Witness for C2 on a concrete 100×100 one-channel image and the rect
(0,0)-(20,20). -/
theorem C2_extractRegion_validation_witness :
    ∃ d, extractRegion ⟨100, 100, 1, fun _ _ _ => 0⟩ ⟨0, 0, 20, 20⟩ = .ok d
      ∧ d.width = (Rect.width ⟨0, 0, 20, 20⟩).toNat
      ∧ d.height = (Rect.height ⟨0, 0, 20, 20⟩).toNat
      ∧ d.channels = 1
      ∧ d.pixels.length = 1
      ∧ (∀ buf ∈ d.pixels,
          buf.length = (Rect.width ⟨0, 0, 20, 20⟩).toNat * (Rect.height ⟨0, 0, 20, 20⟩).toNat)
      ∧ d.mask = none :=
  (C2_extractRegion_validation ⟨100, 100, 1, fun _ _ _ => 0⟩ ⟨0, 0, 20, 20⟩).2.2
    (by decide) (by decide) (by decide)

-- ---------------------------------------------------------------------------
-- C6: identity-scale resampling
-- ---------------------------------------------------------------------------

theorem cubicWeight_neg_one : ScalingUtils.cubicWeight (-1) = 0 := by
  norm_num [ScalingUtils.cubicWeight]

theorem cubicWeight_zero : ScalingUtils.cubicWeight 0 = 1 := by
  norm_num [ScalingUtils.cubicWeight]

theorem cubicWeight_one : ScalingUtils.cubicWeight 1 = 0 := by
  norm_num [ScalingUtils.cubicWeight]

theorem cubicWeight_two : ScalingUtils.cubicWeight 2 = 0 := by
  norm_num [ScalingUtils.cubicWeight]

theorem lanczosKernel_zero : ScalingUtils.lanczosKernel 0 3 = 1 := by
  simp [ScalingUtils.lanczosKernel]

/-- The Lanczos-3 kernel vanishes at every nonzero integer of absolute
value below 3 (the sine of an integer multiple of π is zero). -/
theorem lanczosKernel_int (k : ℤ) (hk : k ≠ 0) (hk3 : |k| < 3) :
    ScalingUtils.lanczosKernel (k : ℝ) 3 = 0 := by
  unfold ScalingUtils.lanczosKernel
  rw [if_neg (by exact_mod_cast hk)]
  rw [if_neg (by push_cast; rw [← Int.cast_abs]; exact_mod_cast not_le.mpr hk3)]
  have hsin : Real.sin (Real.pi * (k : ℝ)) = 0 := by
    rw [mul_comm]; exact Real.sin_int_mul_pi k
  simp [hsin]

theorem nearestPixel_id (src : List ℝ) (w h x y : ℕ) (hx : x < w) (hy : y < h) :
    ScalingUtils.nearestPixel src w h w h x y = src.getD (y * w + x) 0 := by
  have hw : ((w : ℝ)) ≠ 0 := Nat.cast_ne_zero.mpr (by omega)
  have hh : ((h : ℝ)) ≠ 0 := Nat.cast_ne_zero.mpr (by omega)
  simp only [ScalingUtils.nearestPixel, div_self hw, div_self hh, mul_one,
    Int.floor_natCast]
  have h1 : min (x : ℤ) ((w : ℤ) - 1) = (x : ℤ) := by omega
  have h2 : min (y : ℤ) ((h : ℤ) - 1) = (y : ℤ) := by omega
  rw [h1, h2]
  have h3 : ((y : ℤ) * (w : ℤ) + (x : ℤ)) = ((y * w + x : ℕ) : ℤ) := by push_cast; ring
  rw [h3, bufGet_natCast]

theorem nearestInterpolate_id (src : List ℝ) (w h : ℕ)
    (hlen : src.length = h * w) :
    ScalingUtils.nearestInterpolate src w h w h = src := by
  exact mkBuf_eq_self w h src hlen _ (fun x y hx hy => nearestPixel_id src w h x y hx hy)

theorem bilinearPixel_id (src : List ℝ) (w h x y : ℕ) (hx : x < w) (hy : y < h) :
    ScalingUtils.bilinearPixel src w h w h x y = src.getD (y * w + x) 0 := by
  have hw : ((w : ℝ)) ≠ 0 := Nat.cast_ne_zero.mpr (by omega)
  have hh : ((h : ℝ)) ≠ 0 := Nat.cast_ne_zero.mpr (by omega)
  simp only [ScalingUtils.bilinearPixel, div_self hw, div_self hh, mul_one,
    Int.floor_natCast, Int.cast_natCast, sub_self]
  have h3 : ((y : ℤ) * (w : ℤ) + (x : ℤ)) = ((y * w + x : ℕ) : ℤ) := by push_cast; ring
  rw [h3, bufGet_natCast]
  ring

theorem clampIdx_of_lt (n : ℕ) (i : ℕ) (hi : i < n) : clampIdx n (i : ℤ) = (i : ℤ) := by
  unfold clampIdx; omega

theorem bicubicPixel_id (src : List ℝ) (w h x y : ℕ) (hx : x < w) (hy : y < h) :
    ScalingUtils.bicubicPixel src w h w h x y
      = max 0 (min 1 (src.getD (y * w + x) 0)) := by
  have hw : ((w : ℝ)) ≠ 0 := Nat.cast_ne_zero.mpr (by omega)
  have hh : ((h : ℝ)) ≠ 0 := Nat.cast_ne_zero.mpr (by omega)
  simp only [ScalingUtils.bicubicPixel, div_self hw, div_self hh, mul_one,
    Int.floor_natCast, Int.cast_natCast, sub_self, sub_zero,
    Finset.sum_range_succ, Finset.sum_range_zero]
  norm_num [cubicWeight_neg_one, cubicWeight_zero, cubicWeight_one, cubicWeight_two,
    clampIdx_of_lt w x hx, clampIdx_of_lt h y hy]
  have h3 : ((y : ℤ) * (w : ℤ) + (x : ℤ)) = ((y * w + x : ℕ) : ℤ) := by push_cast; ring
  rw [h3, bufGet_natCast]
  simp [List.getD_eq_getElem?_getD]

theorem lanczosPixel_id (src : List ℝ) (w h x y : ℕ) (hx : x < w) (hy : y < h) :
    ScalingUtils.lanczosPixel src w h w h x y
      = max 0 (min 1 (src.getD (y * w + x) 0)) := by
  have hw : ((w : ℝ)) ≠ 0 := Nat.cast_ne_zero.mpr (by omega)
  have hh : ((h : ℝ)) ≠ 0 := Nat.cast_ne_zero.mpr (by omega)
  have l1 : ScalingUtils.lanczosKernel (1 : ℝ) 3 = 0 := by
    have := lanczosKernel_int 1 (by decide) (by decide)
    exact_mod_cast this
  have l2 : ScalingUtils.lanczosKernel (2 : ℝ) 3 = 0 := by
    have := lanczosKernel_int 2 (by decide) (by decide)
    exact_mod_cast this
  have lm1 : ScalingUtils.lanczosKernel (-1 : ℝ) 3 = 0 := by
    have := lanczosKernel_int (-1) (by decide) (by decide)
    exact_mod_cast this
  have lm2 : ScalingUtils.lanczosKernel (-2 : ℝ) 3 = 0 := by
    have := lanczosKernel_int (-2) (by decide) (by decide)
    exact_mod_cast this
  have lm3 : ScalingUtils.lanczosKernel (-3 : ℝ) 3 = 0 := by
    norm_num [ScalingUtils.lanczosKernel]
  simp only [ScalingUtils.lanczosPixel, div_self hw, div_self hh, mul_one,
    Int.floor_natCast, Int.cast_natCast, sub_self, sub_zero,
    Finset.sum_range_succ, Finset.sum_range_zero]
  norm_num [lanczosKernel_zero, l1, l2, lm1, lm2, lm3,
    clampIdx_of_lt w x hx, clampIdx_of_lt h y hy]
  have h3 : ((y : ℤ) * (w : ℤ) + (x : ℤ)) = ((y * w + x : ℕ) : ℤ) := by push_cast; ring
  rw [h3, bufGet_natCast]
  simp [List.getD_eq_getElem?_getD]

/-- C6: at identity scale (`dstW = srcW`, `dstH = srcH`) the
nearest-neighbor method reproduces the source buffer exactly, and the
bilinear, bicubic and Lanczos-3 methods produce every output sample
within 1e-4 of the corresponding source sample (for sample values in
`[0,1]`, the `SampleBuffer` invariant). -/
theorem C6_identity_resampling (src : List ℝ) (w h : ℕ)
    (hlen : src.length = h * w)
    (hrange : ∀ v ∈ src, 0 ≤ v ∧ v ≤ 1) :
    ScalingUtils.nearestInterpolate src w h w h = src
    ∧ (∀ x y, x < w → y < h →
        |ScalingUtils.bilinearPixel src w h w h x y - src.getD (y * w + x) 0| < 1 / 10000)
    ∧ (∀ x y, x < w → y < h →
        |ScalingUtils.bicubicPixel src w h w h x y - src.getD (y * w + x) 0| < 1 / 10000)
    ∧ (∀ x y, x < w → y < h →
        |ScalingUtils.lanczosPixel src w h w h x y - src.getD (y * w + x) 0| < 1 / 10000) := by
  have hval : ∀ x y, x < w → y < h →
      max 0 (min 1 (src.getD (y * w + x) 0)) = src.getD (y * w + x) 0 := by
    intro x y hx hy
    have hidx : y * w + x < src.length := by
      rw [hlen]
      calc y * w + x < y * w + w := by omega
      _ = (y + 1) * w := by ring
      _ ≤ h * w := Nat.mul_le_mul_right _ (by omega)
    have hmem : src.getD (y * w + x) 0 ∈ src := by
      rw [List.getD_eq_getElem _ _ hidx]
      exact List.getElem_mem hidx
    obtain ⟨h0, h1⟩ := hrange _ hmem
    rw [min_eq_right h1, max_eq_right h0]
  refine ⟨nearestInterpolate_id src w h hlen, ?_, ?_, ?_⟩
  · intro x y hx hy
    rw [bilinearPixel_id src w h x y hx hy]
    norm_num
  · intro x y hx hy
    rw [bicubicPixel_id src w h x y hx hy, hval x y hx hy]
    norm_num
  · intro x y hx hy
    rw [lanczosPixel_id src w h x y hx hy, hval x y hx hy]
    norm_num

/-- Witness for C6 on the concrete 2×2 buffer of zeros. -/
theorem C6_identity_resampling_witness :
    ScalingUtils.nearestInterpolate [0, 0, 0, 0] 2 2 2 2 = [0, 0, 0, 0]
    ∧ (∀ x y, x < 2 → y < 2 →
        |ScalingUtils.bilinearPixel [0, 0, 0, 0] 2 2 2 2 x y
          - ([0, 0, 0, 0] : List ℝ).getD (y * 2 + x) 0| < 1 / 10000)
    ∧ (∀ x y, x < 2 → y < 2 →
        |ScalingUtils.bicubicPixel [0, 0, 0, 0] 2 2 2 2 x y
          - ([0, 0, 0, 0] : List ℝ).getD (y * 2 + x) 0| < 1 / 10000)
    ∧ (∀ x y, x < 2 → y < 2 →
        |ScalingUtils.lanczosPixel [0, 0, 0, 0] 2 2 2 2 x y
          - ([0, 0, 0, 0] : List ℝ).getD (y * 2 + x) 0| < 1 / 10000) :=
  C6_identity_resampling [0, 0, 0, 0] 2 2 (by rfl)
    (by intro v hv; simp only [List.mem_cons, List.not_mem_nil, or_false] at hv
        rcases hv with h | h | h | h <;> rw [h] <;> norm_num)

-- ---------------------------------------------------------------------------
-- C10 / C9: the engine's optimized bicubic vs the naive ScalingUtils one
-- ---------------------------------------------------------------------------

theorem engineCubicWeight_eq (t : ℝ) :
    engineCubicWeight t = ScalingUtils.cubicWeight t := by
  unfold engineCubicWeight ScalingUtils.cubicWeight
  have habs : (if t < 0 then -t else t) = |t| := by
    rcases lt_or_le t 0 with h | h
    · rw [if_pos h, abs_of_neg h]
    · rw [if_neg (not_lt.mpr h), abs_of_nonneg h]
  rw [habs]

theorem jsTrunc_of_nonneg {r : ℝ} (h : 0 ≤ r) : jsTrunc r = ⌊r⌋ := if_pos h

theorem engineClampIdx_eq {n : ℕ} (hn : 0 < n) (p : ℤ) :
    engineClampIdx n p = clampIdx n p := by
  unfold engineClampIdx clampIdx
  split_ifs <;> omega

theorem ifClamp_eq (v : ℝ) :
    (if v < 0 then (0 : ℝ) else if v > 1 then 1 else v) = max 0 (min 1 v) := by
  split_ifs with h1 h2
  · rw [min_eq_right (by linarith), max_eq_left (by linarith)]
  · rw [min_eq_left (by linarith), max_eq_right (by linarith)]
  · rw [min_eq_right (by linarith), max_eq_right (by linarith)]

/-- The row-cached weight vector of the engine's bicubic, read at
index `i < 4`, is the naive kernel evaluated at `(i - 1) - frac`. -/
theorem weightRow_getD (f : ℝ) {i : ℕ} (hi : i < 4) :
    ([engineCubicWeight (-1 - f), engineCubicWeight (0 - f),
      engineCubicWeight (1 - f), engineCubicWeight (2 - f)]).getD i 0
      = ScalingUtils.cubicWeight ((((i : ℤ) - 1 : ℤ) : ℝ) - f) := by
  interval_cases i <;>
    · simp only [List.getD, List.getElem?_cons_zero, List.getElem?_cons_succ,
        Option.getD_some, engineCubicWeight_eq]
      norm_num

theorem engineBicubicPixel_eq (src : List ℝ) (srcW srcH dstW dstH : ℕ)
    (hsw : 0 < srcW) (hsh : 0 < srcH) (x y : ℕ) :
    engineBicubicPixel src srcW srcH dstW dstH x y
      = ScalingUtils.bicubicPixel src srcW srcH dstW dstH x y := by
  have hsx : (0 : ℝ) ≤ (x : ℝ) * ((srcW : ℝ) / (dstW : ℝ)) := by positivity
  have hsy : (0 : ℝ) ≤ (y : ℝ) * ((srcH : ℝ) / (dstH : ℝ)) := by positivity
  simp only [engineBicubicPixel, ScalingUtils.bicubicPixel,
    jsTrunc_of_nonneg hsx, jsTrunc_of_nonneg hsy,
    engineClampIdx_eq hsw, engineClampIdx_eq hsh, ifClamp_eq]
  refine congrArg (fun z => max 0 (min 1 z)) ?_
  refine congrArg₂ (· / ·) ?_ ?_ <;>
  · refine Finset.sum_congr rfl fun j hj => Finset.sum_congr rfl fun i hi => ?_
    rw [weightRow_getD _ (Finset.mem_range.mp hi),
      weightRow_getD _ (Finset.mem_range.mp hj)]
    try rw [show ∀ v : ℤ, v + (i : ℤ) - 1 = v + ((i : ℤ) - 1) from fun v => by ring,
      show ∀ v : ℤ, v + (j : ℤ) - 1 = v + ((j : ℤ) - 1) from fun v => by ring]

theorem engineBicubicInterpolate_eq (src : List ℝ) (srcW srcH dstW dstH : ℕ)
    (hsw : 0 < srcW) (hsh : 0 < srcH) :
    engineBicubicInterpolate src srcW srcH dstW dstH
      = ScalingUtils.bicubicInterpolate src srcW srcH dstW dstH := by
  unfold engineBicubicInterpolate ScalingUtils.bicubicInterpolate
  congr 1
  funext x y
  exact engineBicubicPixel_eq src srcW srcH dstW dstH hsw hsh x y

/-- C10: the engine's optimized bicubic interpolator (row-cached
weights, inlined floor via `|0`, inlined abs) computes exactly the same
output buffer as the naive ScalingUtils bicubic interpolator, for every
source buffer and positive dimensions, pixel by pixel, with the same
cubic weight function. -/
theorem C10_engineBicubic_refines_naive (src : List ℝ) (srcW srcH dstW dstH : ℕ)
    (hsw : 0 < srcW) (hsh : 0 < srcH) (hdw : 0 < dstW) (hdh : 0 < dstH) :
    engineBicubicInterpolate src srcW srcH dstW dstH
      = ScalingUtils.bicubicInterpolate src srcW srcH dstW dstH
    ∧ (∀ x y, engineBicubicPixel src srcW srcH dstW dstH x y
        = ScalingUtils.bicubicPixel src srcW srcH dstW dstH x y)
    ∧ (∀ t, engineCubicWeight t = ScalingUtils.cubicWeight t) :=
  ⟨engineBicubicInterpolate_eq src srcW srcH dstW dstH hsw hsh,
   fun x y => engineBicubicPixel_eq src srcW srcH dstW dstH hsw hsh x y,
   engineCubicWeight_eq⟩

/-- Witness for C10 at a concrete 2×2 zero buffer scaled to 3×3. -/
theorem C10_engineBicubic_refines_naive_witness :
    engineBicubicInterpolate [0, 0, 0, 0] 2 2 3 3
      = ScalingUtils.bicubicInterpolate [0, 0, 0, 0] 2 2 3 3
    ∧ (∀ x y, engineBicubicPixel [0, 0, 0, 0] 2 2 3 3 x y
        = ScalingUtils.bicubicPixel [0, 0, 0, 0] 2 2 3 3 x y)
    ∧ (∀ t, engineCubicWeight t = ScalingUtils.cubicWeight t) :=
  C10_engineBicubic_refines_naive [0, 0, 0, 0] 2 2 3 3
    (by decide) (by decide) (by decide) (by decide)

/-- C9: `scalePixels` takes no method parameter and never reads the
engine's `interpolationMethod` field, so its output is the same for
every value of that field — "nearest", "bilinear", "lanczos" included —
and every channel is resampled with the bicubic kernel (equal, by the
refinement above, to `ScalingUtils.bicubicInterpolate`). -/
theorem C9_scalePixels_always_bicubic (e : InsetEngine) (d : PixData) (tw th : ℕ)
    (hsw : 0 < d.width) (hsh : 0 < d.height) :
    (∀ method : String,
        scalePixels { interpolationMethod := method } d tw th = scalePixels e d tw th)
    ∧ (scalePixels e d tw th).pixels
        = (List.range d.channels).map fun c =>
            ScalingUtils.bicubicInterpolate (d.chan c) d.width d.height tw th := by
  refine ⟨fun _ => rfl, ?_⟩
  simp only [scalePixels]
  refine List.map_congr_left fun c _ => ?_
  exact engineBicubicInterpolate_eq _ _ _ _ _ hsw hsh

/-- Witness for C9 on a concrete one-channel 2×2 region scaled to 4×4. -/
theorem C9_scalePixels_always_bicubic_witness :
    (∀ method : String,
        scalePixels { interpolationMethod := method }
            ⟨[[0, 0, 0, 0]], 2, 2, 1, none, false⟩ 4 4
          = scalePixels { interpolationMethod := "lanczos" }
              ⟨[[0, 0, 0, 0]], 2, 2, 1, none, false⟩ 4 4)
    ∧ (scalePixels { interpolationMethod := "lanczos" }
          ⟨[[0, 0, 0, 0]], 2, 2, 1, none, false⟩ 4 4).pixels
        = (List.range 1).map fun c =>
            ScalingUtils.bicubicInterpolate
              (PixData.chan ⟨[[0, 0, 0, 0]], 2, 2, 1, none, false⟩ c) 2 2 4 4 :=
  C9_scalePixels_always_bicubic { interpolationMethod := "lanczos" }
    ⟨[[0, 0, 0, 0]], 2, 2, 1, none, false⟩ 4 4 (by decide) (by decide)

-- ---------------------------------------------------------------------------
-- C1 / C8: compositeInset
-- ---------------------------------------------------------------------------

theorem setSamples_sample (img : JSImage) (buf : ℤ → ℤ → ℝ) (r : Rect) (c : ℕ)
    (ch : ℕ) (x y : ℤ) :
    (img.setSamples buf r c).sample ch x y
      = if ch = c ∧ r.mem x y then buf (x - r.x0) (y - r.y0)
        else img.sample ch x y := rfl

/-- Writing back a rectangle with exactly the samples it already holds
leaves the image unchanged. -/
theorem setSamples_restore (img : JSImage) (r : Rect) (c : ℕ) :
    img.setSamples (fun lx ly => img.sample c (r.x0 + lx) (r.y0 + ly)) r c = img := by
  refine JSImage.ext rfl rfl rfl ?_
  funext ch x y
  rw [setSamples_sample]
  split_ifs with h
  · obtain ⟨rfl, -⟩ := h
    rw [add_sub_cancel, add_sub_cancel]
  · rfl

theorem foldl_compositeStep_not_mem (ins : PixData) (g : ℝ) (iw ox oy : ℤ)
    (r : Rect) (l : List ℕ) (img : JSImage) (c : ℕ) (x y : ℤ)
    (h : ¬ r.mem x y) :
    ((l.foldl (compositeStep ins g iw ox oy r) img).sample c x y) = img.sample c x y := by
  induction l generalizing img with
  | nil => rfl
  | cons a l ih =>
      rw [List.foldl_cons, ih]
      simp [compositeStep, setSamples_sample, h]

theorem foldl_compositeStep_not_chan (ins : PixData) (g : ℝ) (iw ox oy : ℤ)
    (r : Rect) (l : List ℕ) (img : JSImage) (c : ℕ) (x y : ℤ)
    (h : c ∉ l) :
    ((l.foldl (compositeStep ins g iw ox oy r) img).sample c x y) = img.sample c x y := by
  induction l generalizing img with
  | nil => rfl
  | cons a l ih =>
      have hca : c ≠ a := fun hc => h (hc ▸ List.mem_cons_self a l)
      rw [List.foldl_cons, ih _ (fun hc => h (List.mem_cons_of_mem a hc))]
      simp [compositeStep, setSamples_sample, hca]

/-- After the channel loop, a pixel of the safe rect on a processed
channel holds the blend of the original destination sample (the loop
for channel `c` reads the destination before writing it, and no other
iteration touches channel `c`). -/
theorem foldl_compositeStep_mem (ins : PixData) (g : ℝ) (iw ox oy : ℤ)
    (r : Rect) (l : List ℕ) (img : JSImage) (c : ℕ) (x y : ℤ)
    (hnd : l.Nodup) (hc : c ∈ l) (hmem : r.mem x y) :
    ((l.foldl (compositeStep ins g iw ox oy r) img).sample c x y)
      = compositeBlend ins g iw ox oy c
          (fun lx ly => img.sample c (r.x0 + lx) (r.y0 + ly))
          (x - r.x0) (y - r.y0) := by
  induction l generalizing img with
  | nil => cases hc
  | cons a l ih =>
      obtain ⟨hal, hndl⟩ := List.nodup_cons.mp hnd
      rw [List.foldl_cons]
      rcases List.mem_cons.mp hc with rfl | hcl
      · rw [foldl_compositeStep_not_chan ins g iw ox oy r l _ c x y hal]
        simp [compositeStep, setSamples_sample, hmem]
      · have hca : c ≠ a := fun hc' => hal (hc' ▸ hcl)
        rw [ih _ hndl hcl]
        simp [compositeBlend, compositeStep, setSamples_sample, hca]

theorem compositeStep_zero (ins : PixData) (iw ox oy : ℤ) (r : Rect)
    (img : JSImage) (c : ℕ) :
    compositeStep ins 0 iw ox oy r img c = img := by
  have hbuf : compositeBlend ins 0 iw ox oy c
      (fun lx ly => img.sample c (r.x0 + lx) (r.y0 + ly))
      = fun lx ly => img.sample c (r.x0 + lx) (r.y0 + ly) := by
    funext lx ly
    cases hm : ins.mask with
    | none => simp [compositeBlend, hm]
    | some m => simp [compositeBlend, hm]
  rw [compositeStep, hbuf, setSamples_restore]

theorem foldl_compositeStep_zero (ins : PixData) (iw ox oy : ℤ) (r : Rect)
    (l : List ℕ) (img : JSImage) :
    l.foldl (compositeStep ins 0 iw ox oy r) img = img := by
  induction l generalizing img with
  | nil => rfl
  | cons a l ih => rw [List.foldl_cons, compositeStep_zero, ih]

/-- A pixel of the visible sub-rectangle, on a composited channel,
after `compositeInset`: the blend of the inset sample against the
original destination sample with `alpha = globalOpacity * maskValue`. -/
theorem compositeInset_sample_eq (target : JSImage) (ins : PixData)
    (pos : Position) (g : ℝ) (c : ℕ) (x y : ℤ)
    (hc : c < min ins.channels target.numberOfChannels)
    (hmem : (Rect.intersection
        ⟨pos.x, pos.y, pos.x + (ins.width : ℤ), pos.y + (ins.height : ℤ)⟩
        ⟨0, 0, target.width, target.height⟩).mem x y) :
    (compositeInset target ins pos (some g)).sample c x y
      = bufGet (ins.chan c) ((y - pos.y) * (ins.width : ℤ) + (x - pos.x))
          * (g * maskValAt ins ((y - pos.y) * (ins.width : ℤ) + (x - pos.x)))
        + target.sample c x y
          * (1 - g * maskValAt ins ((y - pos.y) * (ins.width : ℤ) + (x - pos.x))) := by
  have hne : ¬ (Rect.intersection
      ⟨pos.x, pos.y, pos.x + (ins.width : ℤ), pos.y + (ins.height : ℤ)⟩
      ⟨0, 0, target.width, target.height⟩).isEmpty := by
    obtain ⟨h1, h2, h3, h4⟩ := hmem
    unfold Rect.isEmpty
    push_neg
    constructor <;> omega
  simp only [compositeInset, Option.getD_some]
  rw [if_neg hne]
  rw [foldl_compositeStep_mem _ _ _ _ _ _ _ _ _ _ _
    (List.nodup_range _) (List.mem_range.mpr hc) hmem]
  simp only [compositeBlend]
  have hidx : ∀ r0 p0 : ℤ, ∀ v : ℤ, (v - r0 + (r0 - p0)) = v - p0 := fun _ _ _ => by ring
  rw [hidx, hidx]
  have hx : (Rect.intersection
      ⟨pos.x, pos.y, pos.x + (ins.width : ℤ), pos.y + (ins.height : ℤ)⟩
      ⟨0, 0, target.width, target.height⟩).x0
        + (x - (Rect.intersection
      ⟨pos.x, pos.y, pos.x + (ins.width : ℤ), pos.y + (ins.height : ℤ)⟩
      ⟨0, 0, target.width, target.height⟩).x0) = x := by ring
  rw [hx]
  have hy : (Rect.intersection
      ⟨pos.x, pos.y, pos.x + (ins.width : ℤ), pos.y + (ins.height : ℤ)⟩
      ⟨0, 0, target.width, target.height⟩).y0
        + (y - (Rect.intersection
      ⟨pos.x, pos.y, pos.x + (ins.width : ℤ), pos.y + (ins.height : ℤ)⟩
      ⟨0, 0, target.width, target.height⟩).y0) = y := by ring
  rw [hy]
  cases hm : ins.mask with
  | none => simp [maskValAt, hm]
  | some m => simp [maskValAt, hm]

/-- C1: `compositeInset` blends each visible pixel per channel as
`dest = src*alpha + dest*(1-alpha)` with
`alpha = globalOpacity * maskValue` (mask defaulting to 1.0 when
absent); with `globalOpacity = 0` the destination image is bitwise
unchanged; with `globalOpacity = 1` and an all-1.0 mask every
destination pixel of the covered rectangle equals the inset's pixel
exactly. -/
theorem C1_compositeInset_blend (target : JSImage) (ins : PixData)
    (pos : Position) (g : ℝ) :
    (∀ c x y, c < min ins.channels target.numberOfChannels →
      (Rect.intersection
          ⟨pos.x, pos.y, pos.x + (ins.width : ℤ), pos.y + (ins.height : ℤ)⟩
          ⟨0, 0, target.width, target.height⟩).mem x y →
      (compositeInset target ins pos (some g)).sample c x y
        = bufGet (ins.chan c) ((y - pos.y) * (ins.width : ℤ) + (x - pos.x))
            * (g * maskValAt ins ((y - pos.y) * (ins.width : ℤ) + (x - pos.x)))
          + target.sample c x y
            * (1 - g * maskValAt ins ((y - pos.y) * (ins.width : ℤ) + (x - pos.x))))
    ∧ compositeInset target ins pos (some 0) = target
    ∧ ((∀ m, ins.mask = some m → ∀ i, bufGet m i = 1) →
        ∀ c x y, c < min ins.channels target.numberOfChannels →
        (Rect.intersection
            ⟨pos.x, pos.y, pos.x + (ins.width : ℤ), pos.y + (ins.height : ℤ)⟩
            ⟨0, 0, target.width, target.height⟩).mem x y →
        (compositeInset target ins pos (some 1)).sample c x y
          = bufGet (ins.chan c) ((y - pos.y) * (ins.width : ℤ) + (x - pos.x))) := by
  refine ⟨fun c x y hc hmem => compositeInset_sample_eq target ins pos g c x y hc hmem,
    ?_, fun hmask c x y hc hmem => ?_⟩
  · simp only [compositeInset, Option.getD_some]
    split_ifs with h
    · rfl
    · exact foldl_compositeStep_zero _ _ _ _ _ _ _
  · rw [compositeInset_sample_eq target ins pos 1 c x y hc hmem]
    have hmv : maskValAt ins ((y - pos.y) * (ins.width : ℤ) + (x - pos.x)) = 1 := by
      cases hm : ins.mask with
      | none => simp [maskValAt, hm]
      | some m => simp [maskValAt, hm, hmask m hm]
    rw [hmv]
    ring

/-- Witness for C1: a 4×4 half-grey one-channel destination, a maskless
2×2 inset of ones at position (1,1), opacity one half, checked at the
covered pixel (1,1); plus the two degenerate-opacity corollaries. -/
theorem C1_compositeInset_blend_witness :
    (compositeInset ⟨4, 4, 1, fun _ _ _ => 1/2⟩
        ⟨[[1, 1, 1, 1]], 2, 2, 1, none, false⟩ ⟨1, 1⟩ (some (1/2))).sample 0 1 1
      = bufGet (PixData.chan ⟨[[1, 1, 1, 1]], 2, 2, 1, none, false⟩ 0)
          ((1 - 1) * ((2 : ℕ) : ℤ) + (1 - 1))
          * (1/2 * maskValAt ⟨[[1, 1, 1, 1]], 2, 2, 1, none, false⟩
              ((1 - 1) * ((2 : ℕ) : ℤ) + (1 - 1)))
        + (1/2 : ℝ)
          * (1 - 1/2 * maskValAt ⟨[[1, 1, 1, 1]], 2, 2, 1, none, false⟩
              ((1 - 1) * ((2 : ℕ) : ℤ) + (1 - 1))) :=
  (C1_compositeInset_blend ⟨4, 4, 1, fun _ _ _ => 1/2⟩
      ⟨[[1, 1, 1, 1]], 2, 2, 1, none, false⟩ ⟨1, 1⟩ (1/2)).1
    0 1 1 (by decide) (by decide)

/-- C8: `compositeInset` touches only destination pixels inside the
intersection of the inset's destination rectangle with the destination
bounds, and only the first `min(inset channels, destination channels)`
channels; an empty intersection is a silent no-op leaving the
destination entirely unchanged. -/
theorem C8_compositeInset_frame (target : JSImage) (ins : PixData)
    (pos : Position) (opacity : Option ℝ) :
    ((Rect.intersection
        ⟨pos.x, pos.y, pos.x + (ins.width : ℤ), pos.y + (ins.height : ℤ)⟩
        ⟨0, 0, target.width, target.height⟩).isEmpty →
      compositeInset target ins pos opacity = target)
    ∧ (∀ c x y,
        (¬ (Rect.intersection
            ⟨pos.x, pos.y, pos.x + (ins.width : ℤ), pos.y + (ins.height : ℤ)⟩
            ⟨0, 0, target.width, target.height⟩).mem x y
          ∨ min ins.channels target.numberOfChannels ≤ c) →
        (compositeInset target ins pos opacity).sample c x y
          = target.sample c x y) := by
  constructor
  · intro h
    simp only [compositeInset]
    rw [if_pos h]
  · intro c x y h
    simp only [compositeInset]
    split_ifs with hemp
    · rfl
    · rcases h with h | h
      · exact foldl_compositeStep_not_mem _ _ _ _ _ _ _ _ _ _ _ h
      · refine foldl_compositeStep_not_chan _ _ _ _ _ _ _ _ _ _ _ ?_
        intro hc
        have := List.mem_range.mp hc
        omega

/-- Witness for C8: the same 4×4 destination with the inset dragged
fully off-canvas to (10,10) — a silent no-op — and, at position (1,1),
an untouched out-of-intersection pixel. -/
theorem C8_compositeInset_frame_witness :
    ((Rect.intersection ⟨10, 10, 10 + ((2 : ℕ) : ℤ), 10 + ((2 : ℕ) : ℤ)⟩
        ⟨0, 0, 4, 4⟩).isEmpty
      ∧ compositeInset ⟨4, 4, 1, fun _ _ _ => 1/2⟩
          ⟨[[1, 1, 1, 1]], 2, 2, 1, none, false⟩ ⟨10, 10⟩ (some 1)
        = ⟨4, 4, 1, fun _ _ _ => 1/2⟩)
    ∧ (compositeInset ⟨4, 4, 1, fun _ _ _ => 1/2⟩
          ⟨[[1, 1, 1, 1]], 2, 2, 1, none, false⟩ ⟨1, 1⟩ (some 1)).sample 0 0 0
        = (1/2 : ℝ) :=
  ⟨⟨by decide,
    (C8_compositeInset_frame ⟨4, 4, 1, fun _ _ _ => 1/2⟩
        ⟨[[1, 1, 1, 1]], 2, 2, 1, none, false⟩ ⟨10, 10⟩ (some 1)).1 (by decide)⟩,
   (C8_compositeInset_frame ⟨4, 4, 1, fun _ _ _ => 1/2⟩
        ⟨[[1, 1, 1, 1]], 2, 2, 1, none, false⟩ ⟨1, 1⟩ (some 1)).2 0 0 0
     (Or.inl (by decide))⟩

-- ---------------------------------------------------------------------------
-- C3: the circular extraction mask
-- ---------------------------------------------------------------------------

theorem circMaskVal_eq_clamp (w h : ℕ) (r : ℝ) (x y : ℕ) :
    circMaskVal w h r x y = clamp01 (r + 1/2 - pixDist w h x y) := rfl

theorem extractRegion_ok_facts (image : JSImage) (rect : Rect) (d : PixData)
    (h : extractRegion image rect = .ok d) :
    10 ≤ rect.width ∧ 10 ≤ rect.height
      ∧ d.width = rect.width.toNat ∧ d.height = rect.height.toNat := by
  unfold extractRegion at h
  split_ifs at h with h1 h2
  rw [← Except.ok.inj h]
  exact ⟨by omega, by omega, rfl, rfl⟩

/-- Bounds on `Math.round`: `t - 1/2 < round t ≤ t + 1/2`. -/
theorem jsRound_bounds (t : ℝ) : t - 1/2 < (jsRound t : ℝ) ∧ (jsRound t : ℝ) ≤ t + 1/2 := by
  unfold jsRound
  constructor
  · have := Int.lt_floor_add_one (t + 1/2)
    linarith
  · exact Int.floor_le (t + 1/2)

/-- C3: a successful circular extraction carries a mask whose value at
each pixel is `clamp(radius + 0.5 - distanceFromCenter, 0, 1)` with
`radius = diameter/2` and the distance taken from the extracted
square's centre to the pixel centre; consequently the mask is
monotonically non-increasing in that distance, exactly 1.0 at the
centre, and exactly 0.0 at every distance greater than
`radius + 0.5`. -/
theorem C3_extractCircular_mask (image : JSImage) (cx cy diameter : ℝ)
    (d : PixData) (h : extractCircularRegion image cx cy diameter = .ok d) :
    ∃ m, d.mask = some m
      ∧ (∀ x y, x < d.width → y < d.height →
          m.getD (y * d.width + x) 0
            = clamp01 (diameter / 2 + 1/2 - pixDist d.width d.height x y))
      ∧ (∀ x y x' y', x < d.width → y < d.height → x' < d.width → y' < d.height →
          pixDist d.width d.height x y ≤ pixDist d.width d.height x' y' →
          m.getD (y' * d.width + x') 0 ≤ m.getD (y * d.width + x) 0)
      ∧ (∀ x y, x < d.width → y < d.height →
          pixDist d.width d.height x y ≤ 1 →
          m.getD (y * d.width + x) 0 = 1)
      ∧ (∀ x y, x < d.width → y < d.height →
          diameter / 2 + 1/2 < pixDist d.width d.height x y →
          m.getD (y * d.width + x) 0 = 0) := by
  simp only [extractCircularRegion] at h
  set x0 := max 0 (jsRound (cx - diameter / 2)) with hx0
  set y0 := max 0 (jsRound (cy - diameter / 2)) with hy0
  set x1 := min image.width (jsRound (cx + diameter / 2)) with hx1
  set y1 := min image.height (jsRound (cy + diameter / 2)) with hy1
  cases hE : extractRegion image ⟨x0, y0, x1, y1⟩ with
  | error e => rw [hE] at h; exact absurd h (by simp)
  | ok data =>
      rw [hE] at h
      obtain rfl := (Except.ok.injEq _ _).mp h
      obtain ⟨hw10, hh10, hdw, hdh⟩ := extractRegion_ok_facts image _ _ hE
      -- the requested radius is forced above 4.5 by the ≥10px size check
      have hrad : (9 : ℝ) / 2 < diameter / 2 := by
        have hlt := (jsRound_bounds (cx - diameter / 2)).1
        have hle := (jsRound_bounds (cx + diameter / 2)).2
        have hx0ge : (jsRound (cx - diameter / 2) : ℝ) ≤ (x0 : ℝ) := by
          rw [hx0]; exact_mod_cast le_max_right _ _
        have hx1le : (x1 : ℝ) ≤ (jsRound (cx + diameter / 2) : ℝ) := by
          rw [hx1]; exact_mod_cast min_le_right _ _
        have hwr : (10 : ℝ) ≤ (x1 : ℝ) - (x0 : ℝ) := by
          have : (10 : ℤ) ≤ x1 - x0 := hw10
          exact_mod_cast this
        linarith
      refine ⟨_, rfl, ?_, ?_, ?_, ?_⟩
      · intro x y hx hy
        rw [mkBuf_getD _ _ _ _ _ hx hy, circMaskVal_eq_clamp]
      · intro x y x' y' hx hy hx' hy' hdist
        rw [mkBuf_getD _ _ _ _ _ hx hy, mkBuf_getD _ _ _ _ _ hx' hy',
          circMaskVal_eq_clamp, circMaskVal_eq_clamp]
        exact clamp01_mono (by linarith)
      · intro x y hx hy hclose
        rw [mkBuf_getD _ _ _ _ _ hx hy, circMaskVal_eq_clamp]
        exact clamp01_of_one_le (by linarith)
      · intro x y hx hy hfar
        rw [mkBuf_getD _ _ _ _ _ hx hy, circMaskVal_eq_clamp]
        exact clamp01_of_neg (by linarith)

/-- Concrete circular extraction: 100×100 zero image, centre (50,50),
diameter 20 — the bounding square is (40,40)-(60,60). -/
theorem extractCircular_concrete :
    extractCircularRegion ⟨100, 100, 1, fun _ _ _ => 0⟩ 50 50 20
      = .ok { pixels := [mkBuf 20 20 fun _ _ => (0 : ℝ)]
              width := 20
              height := 20
              channels := 1
              mask := some (mkBuf 20 20 (circMaskVal 20 20 (20 / 2)))
              isCircular := true } := by
  have h0 : jsRound ((50 : ℝ) - 20 / 2) = 40 := by
    unfold jsRound
    rw [Int.floor_eq_iff]
    norm_num
  have h1 : jsRound ((50 : ℝ) + 20 / 2) = 60 := by
    unfold jsRound
    rw [Int.floor_eq_iff]
    norm_num
  simp only [extractCircularRegion, h0, h1]
  norm_num [extractRegion, Rect.width, Rect.height]
  have ht : Int.toNat 20 = 20 := rfl
  rw [ht]
  exact ⟨rfl, rfl, rfl⟩

/-- Witness for C3 at the concrete extraction above. -/
theorem C3_extractCircular_mask_witness :
    ∃ m, (PixData.mask
        { pixels := [mkBuf 20 20 fun _ _ => (0 : ℝ)]
          width := 20
          height := 20
          channels := 1
          mask := some (mkBuf 20 20 (circMaskVal 20 20 (20 / 2)))
          isCircular := true }) = some m
      ∧ (∀ x y, x < 20 → y < 20 →
          m.getD (y * 20 + x) 0
            = clamp01 ((20 : ℝ) / 2 + 1/2 - pixDist 20 20 x y))
      ∧ (∀ x y x' y', x < 20 → y < 20 → x' < 20 → y' < 20 →
          pixDist 20 20 x y ≤ pixDist 20 20 x' y' →
          m.getD (y' * 20 + x') 0 ≤ m.getD (y * 20 + x) 0)
      ∧ (∀ x y, x < 20 → y < 20 →
          pixDist 20 20 x y ≤ 1 →
          m.getD (y * 20 + x) 0 = 1)
      ∧ (∀ x y, x < 20 → y < 20 →
          (20 : ℝ) / 2 + 1/2 < pixDist 20 20 x y →
          m.getD (y * 20 + x) 0 = 0) :=
  C3_extractCircular_mask ⟨100, 100, 1, fun _ _ _ => 0⟩ 50 50 20
    _ extractCircular_concrete

-- ---------------------------------------------------------------------------
-- C4: addBorder mask synthesis
-- ---------------------------------------------------------------------------

/-- The rectangular bordered mask, read back pixel-wise: 1.0 on the
interior content rectangle, `borderAlpha` elsewhere. -/
theorem borderedMaskBuf_rect_val (d : PixData) (b : ℕ) (color : Color)
    (hm : d.mask = none) (x y : ℕ)
    (hx : x < d.width + b * 2) (hy : y < d.height + b * 2) :
    (borderedMaskBuf d b color).getD (y * (d.width + b * 2) + x) 0
      = if b ≤ x ∧ x < d.width + b * 2 - b ∧ b ≤ y ∧ y < d.height + b * 2 - b
        then 1 else color.a.getD 1 := by
  unfold borderedMaskBuf
  rw [hm]
  rw [mkBuf_getD _ _ _ _ _ hx hy]

/-- The circular bordered mask, read back pixel-wise: the source's
four-zone if-chain over the distance to the canvas centre. -/
theorem borderedMaskBuf_circ_val (d : PixData) (b : ℕ) (color : Color)
    (m0 : List ℝ) (hm : d.mask = some m0) (x y : ℕ)
    (hx : x < d.width + b * 2) (hy : y < d.height + b * 2) :
    (borderedMaskBuf d b color).getD (y * (d.width + b * 2) + x) 0
      = (if borderOuterRadius d b + 1/2 < borderDist d b x y then 0
         else if borderOuterRadius d b - 1/2 < borderDist d b x y then
           color.a.getD 1 * (borderOuterRadius d b + 1/2 - borderDist d b x y)
         else if borderOuterRadius d b - (b : ℝ) < borderDist d b x y then
           color.a.getD 1
         else 1) := by
  unfold borderedMaskBuf
  rw [hm]
  rw [mkBuf_getD _ _ _ _ _ hx hy]
  rfl

/-- C4 (amended): for every input region with at least one channel,
`addBorder` with border width `b` produces output of size
`(w+2b, h+2b)` carrying a mask; for a maskless (rectangular) input the
mask is 1.0 exactly on `[b, w+b) × [b, h+b)` and `borderAlpha`
elsewhere; for a masked (circular) input the mask is 0 beyond
`outer + 0.5`, `borderAlpha·(outer + 0.5 − dist)` in the band
`outer − 0.5 < dist ≤ outer + 0.5`, `borderAlpha` in the ring
`inner < dist ≤ outer − 0.5`, and — whenever `b ≥ 1` — 1.0 for
`dist ≤ inner`, with `outer = min(w+2b, h+2b)/2`, `inner = outer − b`. -/
theorem C4_addBorder_mask (d : PixData) (b : ℕ) (color : Color)
    (hch : 0 < d.channels) :
    (addBorder d b color).width = d.width + b * 2
    ∧ (addBorder d b color).height = d.height + b * 2
    ∧ ∃ M, (addBorder d b color).mask = some M
      ∧ (d.mask = none →
          ∀ x y, x < d.width + b * 2 → y < d.height + b * 2 →
            M.getD (y * (d.width + b * 2) + x) 0
              = if b ≤ x ∧ x < d.width + b ∧ b ≤ y ∧ y < d.height + b
                then 1 else color.a.getD 1)
      ∧ (∀ m0, d.mask = some m0 →
          ∀ x y, x < d.width + b * 2 → y < d.height + b * 2 →
            (borderOuterRadius d b + 1/2 < borderDist d b x y →
              M.getD (y * (d.width + b * 2) + x) 0 = 0)
            ∧ (borderOuterRadius d b - 1/2 < borderDist d b x y →
               borderDist d b x y ≤ borderOuterRadius d b + 1/2 →
              M.getD (y * (d.width + b * 2) + x) 0
                = color.a.getD 1 * (borderOuterRadius d b + 1/2 - borderDist d b x y))
            ∧ (borderOuterRadius d b - (b : ℝ) < borderDist d b x y →
               borderDist d b x y ≤ borderOuterRadius d b - 1/2 →
              M.getD (y * (d.width + b * 2) + x) 0 = color.a.getD 1)
            ∧ (1 ≤ b → borderDist d b x y ≤ borderOuterRadius d b - (b : ℝ) →
              M.getD (y * (d.width + b * 2) + x) 0 = 1)) := by
  refine ⟨rfl, rfl, borderedMaskBuf d b color, ?_, ?_, ?_⟩
  · simp only [addBorder]
    rw [if_pos hch]
  · intro hm x y hx hy
    rw [borderedMaskBuf_rect_val d b color hm x y hx hy]
    refine if_congr ?_ rfl rfl
    omega
  · intro m0 hm x y hx hy
    rw [borderedMaskBuf_circ_val d b color m0 hm x y hx hy]
    refine ⟨fun h1 => ?_, fun h1 h2 => ?_, fun h1 h2 => ?_, fun hb h1 => ?_⟩
    · rw [if_pos h1]
    · rw [if_neg (by linarith), if_pos h1]
    · rw [if_neg (by linarith), if_neg (by linarith), if_pos h1]
    · have hb1 : (1 : ℝ) ≤ (b : ℝ) := by exact_mod_cast hb
      rw [if_neg (by linarith), if_neg (by linarith), if_neg (by linarith)]

/-- Witness for C4 (amended) on a one-channel 1×1 rectangular region
with border width 1. -/
theorem C4_addBorder_mask_witness :
    (addBorder ⟨[[0]], 1, 1, 1, none, false⟩ 1 ⟨0, 0, 0, some (1/2)⟩).width = 1 + 1 * 2
    ∧ (addBorder ⟨[[0]], 1, 1, 1, none, false⟩ 1 ⟨0, 0, 0, some (1/2)⟩).height = 1 + 1 * 2
    ∧ ∃ M, (addBorder ⟨[[0]], 1, 1, 1, none, false⟩ 1 ⟨0, 0, 0, some (1/2)⟩).mask = some M
      ∧ ((PixData.mask ⟨[[0]], 1, 1, 1, none, false⟩) = none →
          ∀ x y, x < 1 + 1 * 2 → y < 1 + 1 * 2 →
            M.getD (y * (1 + 1 * 2) + x) 0
              = if 1 ≤ x ∧ x < 1 + 1 ∧ 1 ≤ y ∧ y < 1 + 1
                then 1 else (Color.a ⟨0, 0, 0, some (1/2)⟩).getD 1)
      ∧ (∀ m0, (PixData.mask ⟨[[0]], 1, 1, 1, none, false⟩) = some m0 →
          ∀ x y, x < 1 + 1 * 2 → y < 1 + 1 * 2 →
            (borderOuterRadius ⟨[[0]], 1, 1, 1, none, false⟩ 1 + 1/2
                < borderDist ⟨[[0]], 1, 1, 1, none, false⟩ 1 x y →
              M.getD (y * (1 + 1 * 2) + x) 0 = 0)
            ∧ (borderOuterRadius ⟨[[0]], 1, 1, 1, none, false⟩ 1 - 1/2
                < borderDist ⟨[[0]], 1, 1, 1, none, false⟩ 1 x y →
               borderDist ⟨[[0]], 1, 1, 1, none, false⟩ 1 x y
                ≤ borderOuterRadius ⟨[[0]], 1, 1, 1, none, false⟩ 1 + 1/2 →
              M.getD (y * (1 + 1 * 2) + x) 0
                = (Color.a ⟨0, 0, 0, some (1/2)⟩).getD 1
                    * (borderOuterRadius ⟨[[0]], 1, 1, 1, none, false⟩ 1 + 1/2
                        - borderDist ⟨[[0]], 1, 1, 1, none, false⟩ 1 x y))
            ∧ (borderOuterRadius ⟨[[0]], 1, 1, 1, none, false⟩ 1 - ((1 : ℕ) : ℝ)
                < borderDist ⟨[[0]], 1, 1, 1, none, false⟩ 1 x y →
               borderDist ⟨[[0]], 1, 1, 1, none, false⟩ 1 x y
                ≤ borderOuterRadius ⟨[[0]], 1, 1, 1, none, false⟩ 1 - 1/2 →
              M.getD (y * (1 + 1 * 2) + x) 0 = (Color.a ⟨0, 0, 0, some (1/2)⟩).getD 1)
            ∧ (1 ≤ 1 →
               borderDist ⟨[[0]], 1, 1, 1, none, false⟩ 1 x y
                ≤ borderOuterRadius ⟨[[0]], 1, 1, 1, none, false⟩ 1 - ((1 : ℕ) : ℝ) →
              M.getD (y * (1 + 1 * 2) + x) 0 = 1)) :=
  C4_addBorder_mask ⟨[[0]], 1, 1, 1, none, false⟩ 1 ⟨0, 0, 0, some (1/2)⟩ (by decide)

/-- Counterexample for C4 as stated: (a) a zero-channel region receives
no mask at all — the mask-synthesis block sits inside the per-channel
loop, which never runs — so the output does not "always carry a mask";
(b) with borderWidth 0 on a masked 10×10 region, pixel (0,4) lies at
distance √20.5 ≤ inner = 5 from the centre, yet its mask value is the
anti-aliased 5.5 − √20.5 ≠ 1.0, contradicting the "1.0 when
dist ≤ inner" zone. -/
theorem C4_addBorder_counterexample :
    (addBorder ⟨[], 1, 1, 0, none, false⟩ 1 ⟨0, 0, 0, none⟩).mask = none
    ∧ ∃ M, (addBorder ⟨[List.replicate 100 1], 10, 10, 1,
            some (List.replicate 100 1), true⟩ 0 ⟨0, 0, 0, some 1⟩).mask = some M
        ∧ borderDist ⟨[List.replicate 100 1], 10, 10, 1,
            some (List.replicate 100 1), true⟩ 0 0 4
            ≤ borderOuterRadius ⟨[List.replicate 100 1], 10, 10, 1,
                some (List.replicate 100 1), true⟩ 0 - ((0 : ℕ) : ℝ)
        ∧ M.getD (4 * (10 + 0 * 2) + 0) 0 ≠ 1 := by
  have hsqrt5 : Real.sqrt 20.5 ≤ 5 := by
    have h1 : Real.sqrt 20.5 ≤ Real.sqrt 25 := Real.sqrt_le_sqrt (by norm_num)
    have h2 : Real.sqrt 25 = 5 := by
      rw [show (25 : ℝ) = 5 ^ 2 by norm_num, Real.sqrt_sq (by norm_num)]
    linarith
  have hsqrtlb : (4.5 : ℝ) < Real.sqrt 20.5 := by
    have h1 : Real.sqrt 20.25 < Real.sqrt 20.5 :=
      Real.sqrt_lt_sqrt (by norm_num) (by norm_num)
    have h2 : Real.sqrt 20.25 = 4.5 := by
      rw [show (20.25 : ℝ) = 4.5 ^ 2 by norm_num, Real.sqrt_sq (by norm_num)]
    linarith
  have hsqne : Real.sqrt 20.5 ≠ 4.5 := by
    intro heq
    have hsq := Real.sq_sqrt (by norm_num : (20.5 : ℝ) ≥ 0)
    rw [heq] at hsq
    norm_num at hsq
  have hdist : borderDist ⟨[List.replicate 100 1], 10, 10, 1,
      some (List.replicate 100 1), true⟩ 0 0 4 = Real.sqrt 20.5 := by
    unfold borderDist pixDist
    norm_num
  have houter : borderOuterRadius ⟨[List.replicate 100 1], 10, 10, 1,
      some (List.replicate 100 1), true⟩ 0 = 5 := by
    unfold borderOuterRadius
    norm_num
  refine ⟨rfl, borderedMaskBuf ⟨[List.replicate 100 1], 10, 10, 1,
      some (List.replicate 100 1), true⟩ 0 ⟨0, 0, 0, some 1⟩, ?_, ?_, ?_⟩
  · simp only [addBorder]
    rw [if_pos (by decide : 0 < 1)]
  · rw [hdist, houter]
    push_cast
    linarith
  · rw [borderedMaskBuf_circ_val _ 0 _ (List.replicate 100 1) rfl 0 4
      (by norm_num) (by norm_num)]
    rw [hdist, houter]
    rw [if_neg (by push_cast; linarith), if_pos (by push_cast; linarith)]
    simp only [Option.getD_some, one_mul]
    intro heq
    apply hsqne
    linarith

-- ---------------------------------------------------------------------------
-- C7: thick-line coverage
-- ---------------------------------------------------------------------------

/-- The parameter clamp `if (t < 0) t = 0; else if (t > len) t = len;`
equals `max 0 (min len t)` for a nonnegative length. -/
theorem clampIf_eq (len t : ℝ) (h : 0 ≤ len) :
    (if t < 0 then 0 else if len < t then len else t) = max 0 (min len t) := by
  split_ifs with h1 h2
  · rw [min_eq_right (by linarith), max_eq_left (by linarith)]
  · rw [min_eq_left (by linarith), max_eq_right h]
  · rw [min_eq_right (by linarith), max_eq_right (by linarith)]

/-- `lineCoverage` on a non-degenerate segment is the piecewise falloff
of the distance to the clamped projection. -/
theorem lineCoverage_nondeg (x0 y0 x1 y1 thickness px py : ℝ)
    (h : ¬ Real.sqrt ((x1 - x0) * (x1 - x0) + (y1 - y0) * (y1 - y0)) < 0.001) :
    lineCoverage x0 y0 x1 y1 thickness px py
      = (if clampedProjDist x0 y0
            ((x1 - x0) / Real.sqrt ((x1 - x0) * (x1 - x0) + (y1 - y0) * (y1 - y0)))
            ((y1 - y0) / Real.sqrt ((x1 - x0) * (x1 - x0) + (y1 - y0) * (y1 - y0)))
            (Real.sqrt ((x1 - x0) * (x1 - x0) + (y1 - y0) * (y1 - y0))) px py
            ≤ thickness / 2 + 0.5
         then (if clampedProjDist x0 y0
            ((x1 - x0) / Real.sqrt ((x1 - x0) * (x1 - x0) + (y1 - y0) * (y1 - y0)))
            ((y1 - y0) / Real.sqrt ((x1 - x0) * (x1 - x0) + (y1 - y0) * (y1 - y0)))
            (Real.sqrt ((x1 - x0) * (x1 - x0) + (y1 - y0) * (y1 - y0))) px py
            ≤ thickness / 2 - 0.5
           then 1
           else thickness / 2 + 0.5
             - clampedProjDist x0 y0
                ((x1 - x0) / Real.sqrt ((x1 - x0) * (x1 - x0) + (y1 - y0) * (y1 - y0)))
                ((y1 - y0) / Real.sqrt ((x1 - x0) * (x1 - x0) + (y1 - y0) * (y1 - y0)))
                (Real.sqrt ((x1 - x0) * (x1 - x0) + (y1 - y0) * (y1 - y0))) px py)
         else 0) := by
  simp only [lineCoverage, clampedProjDist, if_neg h]
  rw [clampIf_eq _ _ (Real.sqrt_nonneg _)]

/-- `lineCoverage` on a degenerate segment substitutes the unit
direction `(1, 0)` and length 1. -/
theorem lineCoverage_degenerate (x0 y0 x1 y1 thickness px py : ℝ)
    (h : Real.sqrt ((x1 - x0) * (x1 - x0) + (y1 - y0) * (y1 - y0)) < 0.001) :
    lineCoverage x0 y0 x1 y1 thickness px py
      = (if clampedProjDist x0 y0 (1 / 1) (0 / 1) 1 px py ≤ thickness / 2 + 0.5
         then (if clampedProjDist x0 y0 (1 / 1) (0 / 1) 1 px py ≤ thickness / 2 - 0.5
           then 1
           else thickness / 2 + 0.5 - clampedProjDist x0 y0 (1 / 1) (0 / 1) 1 px py)
         else 0) := by
  simp only [lineCoverage, clampedProjDist, if_pos h]
  rw [clampIf_eq _ _ (by norm_num : (0 : ℝ) ≤ 1)]

/-- Coverage along a horizontal segment `(0,0)-(L,0)` at a point above
parameter `q ∈ [0, L]`: the distance is `|py|`. -/
theorem lineCoverage_horizontal (L t q py : ℝ) (hL : 0.001 ≤ L)
    (hq0 : 0 ≤ q) (hqL : q ≤ L) :
    lineCoverage 0 0 L 0 t q py
      = (if |py| ≤ t / 2 + 0.5 then
           (if |py| ≤ t / 2 - 0.5 then 1 else t / 2 + 0.5 - |py|)
         else 0) := by
  have hLpos : (0 : ℝ) < L := by linarith
  have hLne : L ≠ 0 := ne_of_gt hLpos
  have hL0 : Real.sqrt ((L - 0) * (L - 0) + (0 - 0) * (0 - 0)) = L := by
    have harg : (L - 0) * (L - 0) + (0 - 0) * (0 - 0) = L * L := by ring
    rw [harg, Real.sqrt_mul_self (by linarith)]
  have hnd : ¬ (L < 0.001) := by linarith
  simp only [lineCoverage, hL0, if_neg hnd]
  rw [show L - (0 : ℝ) = L from sub_zero L, div_self hLne]
  rw [show (0 : ℝ) - 0 = 0 from sub_zero 0, zero_div]
  rw [show (q - 0) * 1 + (py - 0) * 0 = q from by ring]
  rw [clampIf_eq L q (by linarith)]
  rw [min_eq_right hqL, max_eq_right hq0]
  rw [show (0 : ℝ) + q * 1 = q from by ring, show (0 : ℝ) + q * 0 = 0 from by ring]
  rw [show q - q = (0 : ℝ) from sub_self q, sub_zero]
  rw [show (0 : ℝ) * 0 + py * py = py * py from by ring]
  rw [Real.sqrt_mul_self_eq_abs]

/-- C7: the thick-line rasterizer computes per-pixel coverage from the
distance of the pixel centre to its clamped projection onto the
segment — 1.0 within `thickness/2 − 0.5`, linear falloff
`thickness/2 + 0.5 − dist` up to `thickness/2 + 0.5`, 0 beyond; in
particular coverage is 1.0 on the line at thickness 4 and exactly 0.0
at perpendicular distance `thickness/2 + 1.0`; a segment of length
below 0.001 substitutes the unit direction vector and draws a single
dot. -/
theorem C7_lineCoverage_falloff (x0 y0 x1 y1 thickness px py : ℝ) :
    (¬ Real.sqrt ((x1 - x0) * (x1 - x0) + (y1 - y0) * (y1 - y0)) < 0.001 →
      ((clampedProjDist x0 y0
            ((x1 - x0) / Real.sqrt ((x1 - x0) * (x1 - x0) + (y1 - y0) * (y1 - y0)))
            ((y1 - y0) / Real.sqrt ((x1 - x0) * (x1 - x0) + (y1 - y0) * (y1 - y0)))
            (Real.sqrt ((x1 - x0) * (x1 - x0) + (y1 - y0) * (y1 - y0))) px py
          ≤ thickness / 2 - 0.5 →
        lineCoverage x0 y0 x1 y1 thickness px py = 1)
      ∧ (thickness / 2 - 0.5 < clampedProjDist x0 y0
            ((x1 - x0) / Real.sqrt ((x1 - x0) * (x1 - x0) + (y1 - y0) * (y1 - y0)))
            ((y1 - y0) / Real.sqrt ((x1 - x0) * (x1 - x0) + (y1 - y0) * (y1 - y0)))
            (Real.sqrt ((x1 - x0) * (x1 - x0) + (y1 - y0) * (y1 - y0))) px py →
         clampedProjDist x0 y0
            ((x1 - x0) / Real.sqrt ((x1 - x0) * (x1 - x0) + (y1 - y0) * (y1 - y0)))
            ((y1 - y0) / Real.sqrt ((x1 - x0) * (x1 - x0) + (y1 - y0) * (y1 - y0)))
            (Real.sqrt ((x1 - x0) * (x1 - x0) + (y1 - y0) * (y1 - y0))) px py
          ≤ thickness / 2 + 0.5 →
        lineCoverage x0 y0 x1 y1 thickness px py
          = thickness / 2 + 0.5 - clampedProjDist x0 y0
              ((x1 - x0) / Real.sqrt ((x1 - x0) * (x1 - x0) + (y1 - y0) * (y1 - y0)))
              ((y1 - y0) / Real.sqrt ((x1 - x0) * (x1 - x0) + (y1 - y0) * (y1 - y0)))
              (Real.sqrt ((x1 - x0) * (x1 - x0) + (y1 - y0) * (y1 - y0))) px py)
      ∧ (thickness / 2 + 0.5 < clampedProjDist x0 y0
            ((x1 - x0) / Real.sqrt ((x1 - x0) * (x1 - x0) + (y1 - y0) * (y1 - y0)))
            ((y1 - y0) / Real.sqrt ((x1 - x0) * (x1 - x0) + (y1 - y0) * (y1 - y0)))
            (Real.sqrt ((x1 - x0) * (x1 - x0) + (y1 - y0) * (y1 - y0))) px py →
        lineCoverage x0 y0 x1 y1 thickness px py = 0)))
    ∧ (∀ L q, 0.001 ≤ L → 0 ≤ q → q ≤ L → lineCoverage 0 0 L 0 4 q 0 = 1)
    ∧ (∀ L q t, 0.001 ≤ L → 0 ≤ q → q ≤ L → 0 ≤ t →
        lineCoverage 0 0 L 0 t q (t / 2 + 1) = 0)
    ∧ (Real.sqrt ((x1 - x0) * (x1 - x0) + (y1 - y0) * (y1 - y0)) < 0.001 →
        lineCoverage x0 y0 x1 y1 thickness px py
          = (if clampedProjDist x0 y0 (1 / 1) (0 / 1) 1 px py ≤ thickness / 2 + 0.5
             then (if clampedProjDist x0 y0 (1 / 1) (0 / 1) 1 px py ≤ thickness / 2 - 0.5
               then 1
               else thickness / 2 + 0.5 - clampedProjDist x0 y0 (1 / 1) (0 / 1) 1 px py)
             else 0))
    ∧ (∀ a b t, 1 ≤ t → lineCoverage a b a b t a b = 1) := by
  refine ⟨fun hnd => ?_, fun L q hL hq0 hqL => ?_, fun L q t hL hq0 hqL ht => ?_,
    lineCoverage_degenerate x0 y0 x1 y1 thickness px py, fun a b t ht => ?_⟩
  · rw [lineCoverage_nondeg x0 y0 x1 y1 thickness px py hnd]
    refine ⟨fun h1 => ?_, fun h1 h2 => ?_, fun h1 => ?_⟩
    · rw [if_pos (by linarith), if_pos h1]
    · rw [if_pos h2, if_neg (by linarith)]
    · rw [if_neg (by linarith)]
  · rw [lineCoverage_horizontal L 4 q 0 hL hq0 hqL]
    norm_num
  · rw [lineCoverage_horizontal L t q (t / 2 + 1) hL hq0 hqL]
    rw [abs_of_nonneg (by linarith)]
    rw [if_neg (by push_neg; linarith)]
  · have hdeg : Real.sqrt ((a - a) * (a - a) + (b - b) * (b - b)) < 0.001 := by
      rw [show (a - a) * (a - a) + (b - b) * (b - b) = 0 from by ring, Real.sqrt_zero]
      norm_num
    rw [lineCoverage_degenerate a b a b t a b hdeg]
    have hzz : clampedProjDist a b (1 / 1) (0 / 1) 1 a b = 0 := by
      unfold clampedProjDist
      rw [show (a - a) * (1 / 1) + (b - b) * (0 / 1) = 0 from by ring]
      rw [min_eq_right (by norm_num : (0 : ℝ) ≤ 1), max_self]
      show Real.sqrt ((a - (a + 0 * (1 / 1))) * (a - (a + 0 * (1 / 1)))
        + (b - (b + 0 * (0 / 1))) * (b - (b + 0 * (0 / 1)))) = 0
      rw [show a - (a + 0 * (1 / 1)) = 0 from by ring,
        show b - (b + 0 * (0 / 1)) = 0 from by ring]
      rw [show (0 : ℝ) * 0 + 0 * 0 = 0 from by ring, Real.sqrt_zero]
    rw [hzz]
    rw [if_pos (by linarith), if_pos (by linarith)]

/-- Witness for C7: on the segment (0,0)-(10,0), thickness 4, coverage
is 1 at the on-line point (5,0) and 0 at perpendicular distance
4/2 + 1; the degenerate segment at (2,3) draws a dot of coverage 1 at
its own centre. -/
theorem C7_lineCoverage_falloff_witness :
    lineCoverage 0 0 10 0 4 5 0 = 1
    ∧ lineCoverage 0 0 10 0 4 5 (4 / 2 + 1) = 0
    ∧ lineCoverage 2 3 2 3 4 2 3 = 1 :=
  ⟨(C7_lineCoverage_falloff 0 0 10 0 4 5 0).2.1 10 5
      (by norm_num) (by norm_num) (by norm_num),
   (C7_lineCoverage_falloff 0 0 10 0 4 5 0).2.2.1 10 5 4
      (by norm_num) (by norm_num) (by norm_num) (by norm_num),
   (C7_lineCoverage_falloff 0 0 10 0 4 5 0).2.2.2.2 2 3 4 (by norm_num)⟩

end

end PInset
